import Mathlib

/-!
Verification of the Codedx automation subsystem.

Shallow embedding of the automation modules (NotificationService,
DeploymentAutomation, CleanupService, HealthMonitor, DatabaseBackup,
ReportGenerator, and the scheduler in automation/index.js).  Stateful
JavaScript methods become pure Lean functions over explicit state records;
`Date.now()` timestamps are `Nat` milliseconds; external I/O outcomes
(transports, subprocess exit codes, uploads) are passed in as explicit
oracle values.  Functions keep their source names.
-/

instance {ε α : Type} [DecidableEq ε] [DecidableEq α] : DecidableEq (Except ε α) := fun a b =>
  match a, b with
  | .ok x, .ok y =>
    if h : x = y then .isTrue (by rw [h]) else .isFalse (by intro hh; cases hh; exact h rfl)
  | .error x, .error y =>
    if h : x = y then .isTrue (by rw [h]) else .isFalse (by intro hh; cases hh; exact h rfl)
  | .ok _, .error _ => .isFalse (by intro hh; cases hh)
  | .error _, .ok _ => .isFalse (by intro hh; cases hh)

namespace Coded

/-- Source pattern shared by the history arrays: push an element, then drop
the oldest one if the array exceeds its cap
(`history.push(x); if (history.length > cap) history.shift()`). -/
def pushCapped (cap : Nat) (l : List α) (x : α) : List α :=
  let l1 := l ++ [x]
  if l1.length > cap then l1.drop 1 else l1

/-! ## NotificationService (src/unnamed/part_006) -/

/-- One fixed-window rate-limit counter, as in `this.rateLimits[channel]`:
`{ limit, window, count, resetTime }`. -/
structure RateEntry where
  limit : Nat
  window : Nat
  count : Nat
  resetTime : Nat
deriving Repr, DecidableEq

/-- Errors thrown while sending a notification. -/
inductive SendError where
  | notInitialized
  | rateLimited (channel : String) (waitTimeMs : Nat)
  | channelNotConfigured (channel : String)
  | deliveryFailed (channel : String) (msg : String)
deriving Repr, DecidableEq

/-- Core of `checkRateLimit` on one channel's entry.  Mirrors part_006 lines
424-443: if `now > resetTime` the counter resets (this mutation persists even
when the call then throws); if `count >= limit` the call throws carrying the
remaining wait `resetTime - now`; otherwise the count is incremented.
Returns the updated entry and `some waitTime` on rejection. -/
def checkRateLimitE (now : Nat) (e : RateEntry) : RateEntry × Option Nat :=
  let e1 := if now > e.resetTime then { e with count := 0, resetTime := now + e.window } else e
  if e1.limit ≤ e1.count then (e1, some (e1.resetTime - now))
  else ({ e1 with count := e1.count + 1 }, none)

/-- The per-channel rate-limit table `this.rateLimits`. -/
abbrev RateLimits := List (String × RateEntry)

/-- Replace the entry bound to a channel (JS object field assignment). -/
def setEntry (ch : String) (e : RateEntry) : RateLimits → RateLimits
  | [] => []
  | (c, x) :: rest => if c = ch then (c, e) :: rest else (c, x) :: setEntry ch e rest

/-- `checkRateLimit(channel)`: a channel with no configured limit passes
(`if (!limit) return`); otherwise the entry is updated via `checkRateLimitE`
and a rejection becomes a `RateLimited` error. -/
def checkRateLimit (now : Nat) (ch : String) (rl : RateLimits) : RateLimits × Option SendError :=
  match rl.lookup ch with
  | none => (rl, none)
  | some e =>
    let (e1, rej) := checkRateLimitE now e
    (setEntry ch e1 rl, rej.map (fun w => SendError.rateLimited ch w))

/-- `checkRateLimits(channels)`: check every channel in order, stopping at
the first rejection (the loop `for ... await this.checkRateLimit(channel)`
throws out of the loop). -/
def checkRateLimits (now : Nat) : List String → RateLimits → RateLimits × Option SendError
  | [], rl => (rl, none)
  | c :: cs, rl =>
    let (rl1, err) := checkRateLimit now c rl
    match err with
    | some e => (rl1, some e)
    | none => checkRateLimits now cs rl1

/-- A sequence of send attempts against one channel entry, each attempt
calling `checkRateLimitE` at its timestamp; returns the final entry and how
many attempts were accepted.  Rejected attempts keep the (possibly reset)
entry and continue. -/
def runWindow : List Nat → RateEntry → RateEntry × Nat
  | [], e => (e, 0)
  | t :: ts, e =>
    let (e1, rej) := checkRateLimitE t e
    match rej with
    | none =>
      let (f, n) := runWindow ts e1
      (f, n + 1)
    | some _ => runWindow ts e1

/-- The notification record stored into history (id, title, message, data and
template fields are elided; they do not affect control flow). -/
structure NotifRecord where
  channels : List String
  status : String
  results : List (String × Option SendError)
  error : Option SendError
deriving Repr, DecidableEq

/-- Notification-service state: `isInitialized`, the configured channel set
(`this.channels`), the rate-limit table and the in-memory history. -/
structure NSState where
  isInitialized : Bool
  configured : List String
  rateLimits : RateLimits
  notificationHistory : List NotifRecord
deriving Repr, DecidableEq

/-- The in-memory history cap in `storeNotification`: push, then shift when
the array exceeds 1000 entries. -/
def trimHistory (h : List NotifRecord) : List NotifRecord :=
  if h.length > 1000 then h.drop 1 else h

/-- `storeNotification`: append to the in-memory history with the 1000-entry
cap (the day-partitioned file write swallows its own errors and is not
modelled). -/
def storeNotification (n : NotifRecord) (st : NSState) : NSState :=
  { st with notificationHistory := trimHistory (st.notificationHistory ++ [n]) }

/-- `sendToChannel(channelName, notification)`: unconfigured channel throws;
then the channel's rate limit is checked a second time; then the transport is
invoked (`deliver` is the transport oracle: `none` = delivered, `some msg` =
transport error).  The `Bool` reports whether the transport was invoked. -/
def sendToChannel (now : Nat) (deliver : String → Option String) (configured : List String)
    (ch : String) (rl : RateLimits) : RateLimits × Option SendError × Bool :=
  if configured.contains ch = false then (rl, some (SendError.channelNotConfigured ch), false)
  else
    let (rl1, err) := checkRateLimit now ch rl
    match err with
    | some e => (rl1, some e, false)
    | none =>
      match deliver ch with
      | none => (rl1, none, true)
      | some m => (rl1, some (SendError.deliveryFailed ch m), true)

/-- The `Promise.allSettled(channels.map(channel => sendToChannel(...)))` in
`sendNotification`: each channel is attempted and its outcome captured; the
rate-limit state is threaded in channel order (each async body runs its
synchronous rate-limit check before suspending).  Also returns the list of
channels whose transport was actually invoked. -/
def sendAll (now : Nat) (deliver : String → Option String) (configured : List String) :
    List String → RateLimits → RateLimits × List (String × Option SendError) × List String
  | [], rl => (rl, [], [])
  | c :: cs, rl =>
    let (rl1, e, att) := sendToChannel now deliver configured c rl
    let (rl2, res, atts) := sendAll now deliver configured cs rl1
    (rl2, (c, e) :: res, (if att then [c] else []) ++ atts)

/-- `sendNotification(options)` (part_006 lines 93-157).  Throws when not
initialized; otherwise checks rate limits for the whole channel set up front
(`await this.checkRateLimits(channels)`) — an error there lands in the catch
block, which stores the notification with status "failed" and rethrows.
Otherwise every channel is attempted, the overall status is derived from the
per-channel outcomes (`sent` / `partial` / `failed`), and the notification is
stored.  Returns (outcome, new state, channels whose transport was invoked). -/
def sendNotification (now : Nat) (deliver : String → Option String) (channels : List String)
    (st : NSState) : Except SendError NotifRecord × NSState × List String :=
  if st.isInitialized = false then (.error SendError.notInitialized, st, [])
  else
    let (rl1, err) := checkRateLimits now channels st.rateLimits
    match err with
    | some e =>
      let n : NotifRecord := { channels := channels, status := "failed", results := [],
                               error := some e }
      (.error e, storeNotification n { st with rateLimits := rl1 }, [])
    | none =>
      let (rl2, results, attempted) := sendAll now deliver st.configured channels rl1
      let failed := (results.filter (fun r => r.2.isSome)).length
      let status := if failed = 0 then "sent"
                    else if failed = channels.length then "failed" else "partial"
      let n : NotifRecord := { channels := channels, status := status, results := results,
                               error := none }
      (.ok n, storeNotification n { st with rateLimits := rl2 }, attempted)

/-- A channel is at its limit inside the current window: it has a configured
entry whose window has not elapsed and whose count has reached the limit. -/
def atLimit (now : Nat) (rl : RateLimits) (ch : String) : Prop :=
  ∃ e, rl.lookup ch = some e ∧ ¬ (now > e.resetTime) ∧ e.limit ≤ e.count

/-- Concrete state for exercising the rate-limit path: the mail channel has
reached its 10/minute limit inside the current window, the chat (slack)
channel is fresh, both transports would deliver. -/
def c1State : NSState :=
  { isInitialized := true
    configured := ["email", "slack"]
    rateLimits := [("email", ⟨10, 60000, 10, 100000⟩), ("slack", ⟨20, 60000, 0, 100000⟩)]
    notificationHistory := [] }

/-! ## DeploymentAutomation (src/automation/modules/DeploymentAutomation.js) -/

/-- Per-environment deployment configuration
(`deploymentConfig.environments[env]`). -/
structure EnvConfig where
  branch : Option String
  autoDeploy : Bool
  platform : String
  domain : Option String
deriving Repr, DecidableEq

/-- The built-in environment table; the per-environment domains come from
environment variables and are passed in as `domains`. -/
def environments (domains : String → Option String) : List (String × EnvConfig) :=
  [("development", ⟨some "develop", true, "vercel", domains "development"⟩),
   ("staging", ⟨some "staging", true, "vercel", domains "staging"⟩),
   ("production", ⟨some "main", false, "vercel", domains "production"⟩)]

/-- Counts from `git status` (`modified`, `created`, `deleted`). -/
structure GitStatus where
  modified : Nat
  created : Nat
  deleted : Nat
deriving Repr, DecidableEq

/-- External context the deployment pipeline reads: git state, filesystem
facts about the project, and the exit codes / probe result the spawned
commands would produce. -/
structure DeployCtx where
  isInitialized : Bool
  currentBranch : String
  gitStatus : GitStatus
  packageJsonExists : Bool
  buildScriptExists : Bool
  domains : String → Option String
  latestCommit : String
  testExit : Nat
  buildExit : Nat
  vercelExit : Nat
  netlifyExit : Nat
  probe : Except String Nat

/-- Structured versions of the errors thrown along the deployment pipeline. -/
inductive DeployErr where
  | notInitialized
  | branchMismatch (environment required current : String)
  | dirtyWorkingTree
  | missingPackageJson
  | missingBuildScript
  | testsFailed (code : Nat)
  | buildFailed (code : Nat)
  | vercelFailed (code : Nat)
  | netlifyFailed (code : Nat)
  | awsNotImplemented
  | unsupportedPlatform (p : String)
deriving Repr, DecidableEq

/-- The Deployment record (id and timing elided). -/
structure Deployment where
  environment : String
  platform : String
  status : String
  branch : String
  commit : Option String
  buildLog : List String
  deployLog : List String
  error : Option DeployErr
deriving Repr, DecidableEq

/-- Options accepted by `deploy(options)` with their source defaults
(`buildCommand` / `deployCommand` are opaque command strings whose effect is
the exit-code oracle in `DeployCtx`). -/
structure DeployOptions where
  environment : String := "staging"
  platform : String := "vercel"
  force : Bool := false
  skipTests : Bool := false
deriving Repr, DecidableEq

/-- `preDeploymentChecks(deployment, options)` (lines 156-187).  The branch
gate throws unconditionally — it never consults `options.force`; only the
uncommitted-changes gate is force-bypassable (logging a warning).  Then
package.json and its build script must exist. -/
def preDeploymentChecks (ctx : DeployCtx) (d : Deployment) (force : Bool) :
    Deployment × Option DeployErr :=
  let d := { d with buildLog := d.buildLog ++ ["Running pre-deployment checks..."] }
  let envCfg := (environments ctx.domains).lookup d.environment
  match envCfg with
  | some cfg =>
    match cfg.branch with
    | some b =>
      if ctx.currentBranch ≠ b then
        (d, some (DeployErr.branchMismatch d.environment b ctx.currentBranch))
      else preChecksDirty ctx d force
    | none => preChecksDirty ctx d force
  | none => preChecksDirty ctx d force
where
  /-- The uncommitted-changes / package.json / build-script checks that
  follow the branch gate. -/
  preChecksDirty (ctx : DeployCtx) (d : Deployment) (force : Bool) :
      Deployment × Option DeployErr :=
    let dirty := ctx.gitStatus.modified > 0 ∨ ctx.gitStatus.created > 0 ∨
                 ctx.gitStatus.deleted > 0
    if dirty then
      if force = false then (d, some DeployErr.dirtyWorkingTree)
      else
        let d := { d with buildLog := d.buildLog ++
                    ["Warning: Deploying with uncommitted changes"] }
        preChecksPackage ctx d
    else preChecksPackage ctx d
  /-- package.json and build-script existence checks. -/
  preChecksPackage (ctx : DeployCtx) (d : Deployment) : Deployment × Option DeployErr :=
    if ctx.packageJsonExists = false then (d, some DeployErr.missingPackageJson)
    else if ctx.buildScriptExists = false then (d, some DeployErr.missingBuildScript)
    else ({ d with buildLog := d.buildLog ++ ["Pre-deployment checks passed"] }, none)

/-- `runTests(deployment)`: exit code 0 resolves, anything else rejects. -/
def runTests (ctx : DeployCtx) (d : Deployment) : Deployment × Option DeployErr :=
  let d := { d with buildLog := d.buildLog ++ ["Running tests..."] }
  if ctx.testExit = 0 then
    ({ d with buildLog := d.buildLog ++ ["Tests passed"] }, none)
  else (d, some (DeployErr.testsFailed ctx.testExit))

/-- `buildApplication(deployment, options)`. -/
def buildApplication (ctx : DeployCtx) (d : Deployment) : Deployment × Option DeployErr :=
  let d := { d with buildLog := d.buildLog ++ ["Building application..."] }
  if ctx.buildExit = 0 then
    ({ d with buildLog := d.buildLog ++ ["Build completed successfully"] }, none)
  else (d, some (DeployErr.buildFailed ctx.buildExit))

/-- `deployToPlatform(deployment, options)`: vercel/netlify run their deploy
command; aws always throws "not yet implemented"; anything else is
unsupported. -/
def deployToPlatform (ctx : DeployCtx) (platform : String) (d : Deployment) :
    Deployment × Option DeployErr :=
  let d := { d with deployLog := d.deployLog ++ ["Deploying to " ++ platform ++ "..."] }
  if platform = "vercel" then
    if ctx.vercelExit = 0 then
      ({ d with deployLog := d.deployLog ++ ["Vercel deployment completed"] }, none)
    else (d, some (DeployErr.vercelFailed ctx.vercelExit))
  else if platform = "aws" then
    ({ d with deployLog := d.deployLog ++ ["AWS deployment not yet implemented"] },
     some DeployErr.awsNotImplemented)
  else if platform = "netlify" then
    if ctx.netlifyExit = 0 then
      ({ d with deployLog := d.deployLog ++ ["Netlify deployment completed"] }, none)
    else (d, some (DeployErr.netlifyFailed ctx.netlifyExit))
  else (d, some (DeployErr.unsupportedPlatform platform))

/-- `postDeploymentChecks(deployment, options)`: probes the environment's
domain when configured; non-200 responses and probe errors only log warnings
— this step never fails the deployment. -/
def postDeploymentChecks (ctx : DeployCtx) (d : Deployment) : Deployment :=
  let d := { d with deployLog := d.deployLog ++ ["Running post-deployment checks..."] }
  let d :=
    match ((environments ctx.domains).lookup d.environment).bind (fun cfg => cfg.domain) with
    | some dom =>
      match ctx.probe with
      | .ok 200 =>
        { d with deployLog := d.deployLog ++ ["Deployment accessible at https://" ++ dom] }
      | .ok code =>
        { d with deployLog := d.deployLog ++
            ["Warning: Deployment returned status " ++ toString code] }
      | .error m =>
        { d with deployLog := d.deployLog ++
            ["Warning: Could not verify deployment accessibility: " ++ m] }
    | none => d
  { d with deployLog := d.deployLog ++ ["Post-deployment checks completed"] }

/-- `storeDeployment`: append to in-memory history with the 100-entry cap
(file persistence swallows its own errors). -/
def storeDeployment (d : Deployment) (history : List Deployment) : List Deployment :=
  pushCapped 100 history d

/-- `deploy(options)` (lines 78-154).  Note the source passes only
`{ skipTests }` into `preDeploymentChecks`, so `options.force` is undefined
(falsy) inside the pre-checks no matter what the caller set. -/
def deploy (opts : DeployOptions) (ctx : DeployCtx) (history : List Deployment) :
    Except DeployErr Deployment × List Deployment :=
  if ctx.isInitialized = false then (.error DeployErr.notInitialized, history)
  else
    let d0 : Deployment := { environment := opts.environment, platform := opts.platform,
                             status := "pending", branch := ctx.currentBranch, commit := none,
                             buildLog := [], deployLog := [], error := none }
    -- deploy calls preDeploymentChecks(deployment, { skipTests }): force is not forwarded
    let (d1, err) := preDeploymentChecks ctx d0 false
    match err with
    | some e => deployFail d1 e history
    | none =>
      let d2 := { d1 with commit := some ctx.latestCommit }
      let (d3, err) := if opts.skipTests then (d2, none) else runTests ctx d2
      match err with
      | some e => deployFail d3 e history
      | none =>
        let (d4, err) := buildApplication ctx d3
        match err with
        | some e => deployFail d4 e history
        | none =>
          let (d5, err) := deployToPlatform ctx opts.platform d4
          match err with
          | some e => deployFail d5 e history
          | none =>
            let d6 := postDeploymentChecks ctx d5
            let d7 := { d6 with status := "success" }
            (.ok d7, storeDeployment d7 history)
where
  /-- The catch block of `deploy`: mark failed, store, rethrow. -/
  deployFail (d : Deployment) (e : DeployErr) (history : List Deployment) :
      Except DeployErr Deployment × List Deployment :=
    let df := { d with status := "failed", error := some e }
    (.error e, storeDeployment df history)

/-- Context for the branch-mismatch scenario: clean tree, working build, but
the current branch is `main` while `staging` requires branch `staging`. -/
def c2Ctx : DeployCtx :=
  { isInitialized := true, currentBranch := "main", gitStatus := ⟨0, 0, 0⟩,
    packageJsonExists := true, buildScriptExists := true, domains := fun _ => none,
    latestCommit := "abc123", testExit := 0, buildExit := 0, vercelExit := 0,
    netlifyExit := 0, probe := .ok 200 }

/-! ## HealthMonitor (src/automation/modules/HealthMonitor.js) -/

/-- One sub-check's result.  The nested `metrics` object is flattened to the
fields `checkForAlerts` actually reads (`metrics.cpu.usage`,
`metrics.memory.usage`, `metrics.responseTime`); a `none` models the metric
being absent (e.g. an error result with no `metrics`).  Percent and
millisecond values are naturals — fractional precision plays no role in the
claims. -/
structure CheckResult where
  status : String
  message : Option String := none
  cpuUsage : Option Nat := none
  memoryUsage : Option Nat := none
  responseTime : Option Nat := none
deriving Repr, DecidableEq

/-- An alert candidate pushed by `checkForAlerts` (value/threshold details
folded into `message`). -/
structure HMAlert where
  type : String
  component : String
  message : String
deriving Repr, DecidableEq

/-- `this.alertThresholds`. -/
structure Thresholds where
  cpu : Nat := 80
  memory : Nat := 85
  disk : Nat := 90
  responseTime : Nat := 2000
  errorRate : Nat := 5
deriving Repr, DecidableEq

/-- HealthMonitor state: last-alert timestamp (JS `null` is `none`), the
cooldown, thresholds, and the in-memory report history. -/
structure HMState where
  lastAlert : Option Nat
  alertCooldown : Nat
  alertThresholds : Thresholds
  healthHistorySize : Nat
deriving Repr, DecidableEq

/-- `determineOverallHealth(checks)` (lines 338-345): error beats unhealthy
beats warning beats healthy. -/
def determineOverallHealth (checks : List (String × CheckResult)) : String :=
  let statuses := checks.map (fun c => c.2.status)
  if statuses.contains "error" then "error"
  else if statuses.contains "unhealthy" then "unhealthy"
  else if statuses.contains "warning" then "warning"
  else "healthy"

/-- Severity rank of a status under the spec order
healthy < warning < unhealthy < error (unknown strings rank with healthy). -/
def statusRank (s : String) : Nat :=
  if s = "error" then 3 else if s = "unhealthy" then 2 else if s = "warning" then 1 else 0

/-- The alert candidates gathered from a report's checks when not in
cooldown: CPU and memory over threshold, database error, application error,
slow response time — in source order. -/
def gatherAlerts (th : Thresholds) (checks : List (String × CheckResult)) : List HMAlert :=
  let sys := checks.lookup "system"
  let cpuAlerts :=
    match sys with
    | some c =>
      match c.cpuUsage with
      | some v => if v > th.cpu then [⟨"warning", "system", "High CPU usage"⟩] else []
      | none => []
    | none => []
  let memAlerts :=
    match sys with
    | some c =>
      match c.memoryUsage with
      | some v => if v > th.memory then [⟨"warning", "system", "High memory usage"⟩] else []
      | none => []
    | none => []
  let db := checks.lookup "database"
  let dbAlerts :=
    match db with
    | some c => if c.status = "error" then [⟨"error", "database", "Database connection failed"⟩]
                else []
    | none => []
  let app := checks.lookup "application"
  let appAlerts :=
    match app with
    | some c => if c.status = "error" then
                  [⟨"error", "application", "Application health check failed"⟩]
                else []
    | none => []
  let rtAlerts :=
    match app with
    | some c =>
      match c.responseTime with
      | some v => if v > th.responseTime then [⟨"warning", "application", "Slow response time"⟩]
                  else []
      | none => []
    | none => []
  cpuAlerts ++ memAlerts ++ dbAlerts ++ appAlerts ++ rtAlerts

/-- `checkForAlerts(healthReport)` (lines 347-422): inside the cooldown
window the function returns an empty alert list immediately; otherwise it
gathers alert candidates and, if any fired, records `lastAlert := now`. -/
def checkForAlerts (now : Nat) (st : HMState) (checks : List (String × CheckResult)) :
    List HMAlert × HMState :=
  match st.lastAlert with
  | some last =>
    if now - last < st.alertCooldown then ([], st)
    else checkForAlertsGo now st checks
  | none => checkForAlertsGo now st checks
where
  /-- The body after the cooldown guard. -/
  checkForAlertsGo (now : Nat) (st : HMState) (checks : List (String × CheckResult)) :
      List HMAlert × HMState :=
    let alerts := gatherAlerts st.alertThresholds checks
    (alerts, if alerts.length > 0 then { st with lastAlert := some now } else st)

/-- A health report (sub-check map, aggregated overall status, alerts). -/
structure HealthReport where
  overall : String
  checks : List (String × CheckResult)
  alerts : List HMAlert
deriving Repr, DecidableEq

/-- `checkHealth()` with the sub-check battery's results passed in as the
oracle `checkOutcomes` (each probe is external I/O): aggregates the overall
status and computes alerts under the cooldown. -/
def checkHealth (now : Nat) (checkOutcomes : List (String × CheckResult)) (st : HMState) :
    HealthReport × HMState :=
  let overall := determineOverallHealth checkOutcomes
  let (alerts, st1) := checkForAlerts now st checkOutcomes
  ({ overall := overall, checks := checkOutcomes, alerts := alerts }, st1)

/-! ## Scheduler (src/automation/index.js, `AutomationSystem.scheduleTask`) -/

/-- An alert handed to `NotificationService.sendAlert` by the scheduler's
catch block. -/
structure TaskAlert where
  type : String
  title : String
  message : String
  severity : String
deriving Repr, DecidableEq

/-- Scheduler state: the registered cron jobs (`this.scheduledTasks` keys)
and the log of alerts the scheduler asked `sendAlert` to deliver. -/
structure SchedState where
  scheduledTasks : List String
  alertsAttempted : List TaskAlert
deriving Repr, DecidableEq

/-- `scheduleTask(name, cronExpression, task)`: registers the cron job under
its name (`this.scheduledTasks.set(name, job)`). -/
def scheduleTask (name : String) (st : SchedState) : SchedState :=
  { st with scheduledTasks := st.scheduledTasks ++ [name] }

/-- The body of the cron callback installed by `scheduleTask` (index.js lines
116-130): run the task inside try/catch; on failure, send an alert with
severity "high".  `handlerResult` is the job handler's outcome;
`alertDelivery` is `sendAlert`'s own outcome (`none` = delivered).  The
returned `Except` is the callback's promise: it can only reject with the
alert call's error, never with the handler's error. -/
def cronFire (name : String) (handlerResult : Except String Unit)
    (alertDelivery : Option String) (st : SchedState) : Except String Unit × SchedState :=
  match handlerResult with
  | .ok _ => (.ok (), st)
  | .error e =>
    let alert : TaskAlert := { type := "error", title := "Automation Task Failed: " ++ name,
                               message := e, severity := "high" }
    let st := { st with alertsAttempted := st.alertsAttempted ++ [alert] }
    (alertDelivery.elim (Except.ok ()) Except.error, st)

/-! ## ReportGenerator (src/automation/modules/ReportGenerator.js) -/

/-- A report section's stored data: either the collected payload or the
`{ error: message }` placeholder written by the catch block. -/
inductive SectionData where
  | ok (payload : String)
  | errorPlaceholder (message : String)
deriving Repr, DecidableEq

/-- The section loop of `generateReport` (lines 84-91): each requested
section is generated inside its own try/catch; a throw stores
`{ error: message }` for that section and the loop continues with the next
section.  `collect` is the `generateSection` oracle. -/
def generateSections (collect : String → Except String String) :
    List String → List (String × SectionData)
  | [] => []
  | s :: rest =>
    let entry := match collect s with
      | .ok d => SectionData.ok d
      | .error m => SectionData.errorPlaceholder m
    (s, entry) :: generateSections collect rest

/-- The report assembled by `generateReport` (summary, charts and the output
formatting/saving do not touch the per-section data and are elided). -/
structure Report where
  sections : List String
  data : List (String × SectionData)
  status : String
deriving Repr, DecidableEq

/-- `generateReport(options)` restricted to its section loop. -/
def generateReport (collect : String → Except String String) (sections : List String) : Report :=
  { sections := sections, data := generateSections collect sections, status := "completed" }

/-! ## DatabaseBackup (src/automation/modules/DatabaseBackup.js) -/

/-- `this.backupStats`. -/
structure BackupStats where
  totalBackups : Nat
  successfulBackups : Nat
  failedBackups : Nat
  totalSize : Nat
deriving Repr, DecidableEq

/-- DatabaseBackup state.  `statsWrites` counts the `updateBackupStats`
calls (each one also persists `backup-stats.json`); `uploadLog` records every
cloud upload attempt as (target, succeeded). -/
structure DBState where
  isInitialized : Bool
  backupStats : BackupStats
  statsWrites : Nat
  uploadLog : List (String × Bool)
deriving Repr, DecidableEq

/-- Oracle for one `performBackup` run: the export and archive step outcomes,
which cloud targets are configured, and each target's upload outcome
(`none` = uploaded). -/
structure BackupRun where
  exportResult : Except String Unit
  archiveResult : Except String Nat
  s3Configured : Bool
  s3Result : Option String
  driveConfigured : Bool
  driveResult : Option String
deriving Repr, DecidableEq

/-- The record returned by `performBackup` (`this.lastBackup`): name and
timestamps elided; `cloudStorage` is `getCloudStorageStatus()`. -/
structure BackupRecord where
  size : Nat
  cloudStorage : List (String × String)
deriving Repr, DecidableEq

/-- `getCloudStorageStatus()`: reports only which targets are configured —
it carries no per-run upload outcome. -/
def getCloudStorageStatus (run : BackupRun) : List (String × String) :=
  (if run.s3Configured then [("s3", "configured")] else []) ++
  (if run.driveConfigured then [("googleDrive", "configured")] else [])

/-- `updateBackupStats(archivePath, duration, success)` (lines 265-280):
always bumps `totalBackups`, bumps exactly one of the success/failure
tallies, and adds the archive size on success when an archive path exists. -/
def updateBackupStats (archiveSize : Option Nat) (success : Bool) (st : DBState) : DBState :=
  let s := st.backupStats
  let s := { s with totalBackups := s.totalBackups + 1 }
  let s := if success then
      { s with successfulBackups := s.successfulBackups + 1,
               totalSize := s.totalSize + archiveSize.getD 0 }
    else { s with failedBackups := s.failedBackups + 1 }
  { st with backupStats := s, statsWrites := st.statsWrites + 1 }

/-- `uploadToCloud(archivePath, backupName)` (lines 165-182): one upload
promise per configured target, settled with `Promise.allSettled` — every
configured target is attempted and no outcome can reject the backup. -/
def uploadToCloud (run : BackupRun) (st : DBState) : DBState :=
  let attempts := (if run.s3Configured then [("s3", run.s3Result.isNone)] else []) ++
                  (if run.driveConfigured then [("googleDrive", run.driveResult.isNone)] else [])
  { st with uploadLog := st.uploadLog ++ attempts }

/-- `performBackup(options)` (lines 71-119): export, archive, best-effort
cloud uploads, local cleanup (which swallows its own errors), then a
success-stats update; any export/archive error goes to the catch block,
which records a failure-stats update and rethrows. -/
def performBackup (run : BackupRun) (st : DBState) : Except String BackupRecord × DBState :=
  if st.isInitialized = false then
    (.error "DatabaseBackup module not initialized", st)
  else
    match run.exportResult with
    | .error e => (.error e, updateBackupStats none false st)
    | .ok _ =>
      match run.archiveResult with
      | .error e => (.error e, updateBackupStats none false st)
      | .ok size =>
        let st1 := uploadToCloud run st
        let st2 := updateBackupStats (some size) true st1
        (.ok { size := size, cloudStorage := getCloudStorageStatus run }, st2)

/-- A backup run whose S3 upload fails while the Google Drive upload
succeeds. -/
def c7Run : BackupRun :=
  { exportResult := .ok (), archiveResult := .ok 100, s3Configured := true,
    s3Result := some "S3 upload failed", driveConfigured := true, driveResult := none }

/-- The initial DatabaseBackup state used in the C7/C10 witnesses. -/
def c7St : DBState :=
  { isInitialized := true, backupStats := ⟨0, 0, 0, 0⟩, statsWrites := 0, uploadLog := [] }

/-! ## CleanupService (src/automation/modules/CleanupService.js) -/

/-- The glob-to-regex matcher of `matchesPattern`: the source converts a glob
to an anchored regex (`.` escaped, `*` ↦ `.*`, `?` ↦ `.`) and tests the file
name.  Implemented directly on character lists; the fuel argument bounds the
recursion depth (every call shrinks `pattern.length + s.length`, so
`p.length + s.length + 1` fuel is exact) and keeps the function structurally
recursive. -/
def globMatchAux : Nat → List Char → List Char → Bool
  | 0, _, _ => false
  | _ + 1, [], [] => true
  | _ + 1, [], _ :: _ => false
  | fuel + 1, '*' :: ps, [] => globMatchAux fuel ps []
  | fuel + 1, '*' :: ps, c :: cs =>
    globMatchAux fuel ps (c :: cs) || globMatchAux fuel ('*' :: ps) cs
  | _ + 1, '?' :: _, [] => false
  | fuel + 1, '?' :: ps, _ :: cs => globMatchAux fuel ps cs
  | _ + 1, _ :: _, [] => false
  | fuel + 1, ch :: ps, c :: cs => ch == c && globMatchAux fuel ps cs

/-- Anchored glob match of a pattern against a file name. -/
def globMatch (p s : List Char) : Bool := globMatchAux (p.length + s.length + 1) p s

/-- `matchesPattern(filename, patterns)`: true when some pattern matches. -/
def matchesPatterns (filename : String) (patterns : List String) : Bool :=
  patterns.any (fun p => globMatch p.toList filename.toList)

/-- One retention rule of `this.cleanupRules`. -/
structure Rule where
  enabled : Bool
  retention : Nat
  patterns : List String
  directories : List String
deriving Repr, DecidableEq

/-- The built-in rule table (constructor lines 10-47). -/
def cleanupRules : List (String × Rule) :=
  [("logs", ⟨true, 30, ["*.log", "*.log.*"], ["logs", "automation/logs"]⟩),
   ("temp", ⟨true, 7, ["*.tmp", "*.temp", "temp_*"], ["temp", "tmp", "automation/temp"]⟩),
   ("backups", ⟨true, 90, ["backup_*", "*.backup"], ["backups", "automation/backups"]⟩),
   ("reports", ⟨true, 180, ["report_*", "health-*", "deployment-*"],
     ["reports", "automation/reports"]⟩),
   ("notifications", ⟨true, 365, ["notification-*"],
     ["notifications", "automation/notifications"]⟩),
   ("deployments", ⟨true, 365, ["deployment-*"], ["deployments", "automation/deployments"]⟩)]

/-- One file of the directory state: the rule directory it is reachable from
(the source walk recurses into subdirectories; `dir` is the walk's root), its
base name, its `mtime` and size in bytes. -/
structure FileEntry where
  dir : String
  name : String
  mtime : Nat
  size : Nat
deriving Repr, DecidableEq

/-- The directory state: the files the cleanup walk can reach. -/
abbrev FS := List FileEntry

/-- `moment().subtract(retention, 'days')` as milliseconds (calendar quirks
such as DST shifts play no role in the claims). -/
def dayMs : Nat := 24 * 60 * 60 * 1000

/-- The cutoff computed at the top of `cleanupDirectory`. -/
def dirCutoff (now : Nat) (rule : Rule) : Nat := now - rule.retention * dayMs

/-- The per-rule counters of a CleanupResult.  `wouldDelete` counts the
`[DRY RUN] Would delete: …` log lines — the only place the dry run reports
files due for deletion (the returned record's `filesDeleted` stays 0 on a dry
run). -/
structure DirResult where
  filesFound : Nat
  filesDeleted : Nat
  bytesFreed : Nat
  wouldDelete : Nat
deriving Repr, DecidableEq

/-- Two files occupy the same path (same walk root and base name). -/
def samePath (f g : FileEntry) : Bool := f.dir == g.dir && f.name == g.name

/-- `fs.remove(file)`: the path disappears from the directory state. -/
def removeFile (fs : FS) (f : FileEntry) : FS := fs.filter (fun g => !(samePath g f))

/-- The selection predicate of `getFilesInDirectory`: file under this walk
root whose name matches a pattern. -/
def preB (patterns : List String) (dir : String) (f : FileEntry) : Bool :=
  f.dir == dir && matchesPatterns f.name patterns

/-- Old enough to delete: `stats.mtime < cutoffDate`. -/
def oldB (cutoff : Nat) (f : FileEntry) : Bool := decide (f.mtime < cutoff)

/-- A file a cleanup pass would delete: selected and old enough. -/
def hitB (cutoff : Nat) (patterns : List String) (dir : String) (f : FileEntry) : Bool :=
  preB patterns dir f && oldB cutoff f

/-- `getFilesInDirectory(dirPath, patterns)`: the recursive walk filtered by
pattern, in directory order. -/
def getFilesInDirectory (dir : String) (patterns : List String) (fs : FS) : FS :=
  fs.filter (preB patterns dir)

/-- The per-file body of the `cleanupDirectory` loop (lines 199-220): count
the file; if old enough, a dry run only logs "Would delete" while a wet run
removes the file and accumulates the counters. -/
def processFile (dryRun : Bool) (cutoff : Nat) (acc : DirResult × FS) (f : FileEntry) :
    DirResult × FS :=
  let (r, fs) := acc
  let r := { r with filesFound := r.filesFound + 1 }
  if f.mtime < cutoff then
    if dryRun then ({ r with wouldDelete := r.wouldDelete + 1 }, fs)
    else ({ r with filesDeleted := r.filesDeleted + 1, bytesFreed := r.bytesFreed + f.size },
          removeFile fs f)
  else (r, fs)

/-- `cleanupDirectory(dirPath, rule, { dryRun })` (lines 185-228). -/
def cleanupDirectory (dryRun : Bool) (now : Nat) (rule : Rule) (dir : String) (fs : FS) :
    DirResult × FS :=
  (getFilesInDirectory dir rule.patterns fs).foldl
    (processFile dryRun (dirCutoff now rule)) (⟨0, 0, 0, 0⟩, fs)

/-- Pointwise sum of per-directory results (the `result.x += dirResult.x`
accumulation in `cleanupRule`). -/
def addResult (a b : DirResult) : DirResult :=
  ⟨a.filesFound + b.filesFound, a.filesDeleted + b.filesDeleted,
   a.bytesFreed + b.bytesFreed, a.wouldDelete + b.wouldDelete⟩

/-- The directory loop of `cleanupRule` (lines 158-179); a directory missing
from the state contributes nothing, like the `pathExists` guard. -/
def cleanupDirs (dryRun : Bool) (now : Nat) (rule : Rule) :
    List String → DirResult → FS → DirResult × FS
  | [], acc, fs => (acc, fs)
  | d :: ds, acc, fs =>
    let (r, fs1) := cleanupDirectory dryRun now rule d fs
    cleanupDirs dryRun now rule ds (addResult acc r) fs1

/-- `cleanupRule(ruleName, rule, { dryRun })`. -/
def cleanupRule (dryRun : Bool) (now : Nat) (rule : Rule) (fs : FS) : DirResult × FS :=
  cleanupDirs dryRun now rule rule.directories ⟨0, 0, 0, 0⟩ fs

/-- `cleanup.results[ruleName] = result`: JS object assignment — replace the
binding if the key exists, append otherwise. -/
def setResult (rs : List (String × DirResult)) (n : String) (r : DirResult) :
    List (String × DirResult) :=
  match rs with
  | [] => [(n, r)]
  | (k, v) :: rest => if k = n then (k, r) :: rest else (k, v) :: setResult rest n r

/-- The rule loop of `performCleanup` (lines 109-123): unknown or disabled
rule names are skipped, each processed rule's result is stored under its
name. -/
def cleanupRun (dryRun : Bool) (now : Nat) (table : List (String × Rule)) :
    List String → List (String × DirResult) → FS → List (String × DirResult) × FS
  | [], results, fs => (results, fs)
  | n :: ns, results, fs =>
    match table.lookup n with
    | none => cleanupRun dryRun now table ns results fs
    | some rule =>
      if rule.enabled = false then cleanupRun dryRun now table ns results fs
      else
        let (r, fs1) := cleanupRule dryRun now rule fs
        cleanupRun dryRun now table ns (setResult results n r) fs1

/-- `performCleanup({ rules, dryRun })` over the built-in rule table:
per-rule results plus the directory state after the run. -/
def performCleanup (dryRun : Bool) (now : Nat) (ruleNames : List String) (fs : FS) :
    List (String × DirResult) × FS :=
  cleanupRun dryRun now cleanupRules ruleNames [] fs

/-- A directory state with one stale log file under the `logs` rule
directory. -/
def c3fs : FS := [⟨"logs", "old.log", 0, 5⟩]

/-- Distinct files of the state occupy distinct paths (true of any real
directory tree). -/
abbrev NodupPaths (fs : FS) : Prop := (fs.map (fun f => (f.dir, f.name))).Nodup

/-- One deletion pass of a cleanup run: a rule's cutoff and patterns applied
to one of its directories. -/
structure Pass where
  cutoff : Nat
  patterns : List String
  dir : String
deriving Repr, DecidableEq

/-- The pass deletes this file. -/
def passHit (p : Pass) (f : FileEntry) : Bool := hitB p.cutoff p.patterns p.dir f

/-- The pass a rule performs on one directory. -/
def mkPass (now : Nat) (rule : Rule) (d : String) : Pass :=
  ⟨dirCutoff now rule, rule.patterns, d⟩

/-- All passes of one rule. -/
def rulePasses (now : Nat) (rule : Rule) : List Pass := rule.directories.map (mkPass now rule)

/-- All passes a `performCleanup` run performs for a rule-name list. -/
def runPasses (now : Nat) (table : List (String × Rule)) : List String → List Pass
  | [] => []
  | n :: ns =>
    (match table.lookup n with
     | none => []
     | some r => if r.enabled = false then [] else rulePasses now r) ++ runPasses now table ns

/-- Some pass of the list deletes this file. -/
def hitAny (ps : List Pass) (f : FileEntry) : Bool := ps.any (fun p => passHit p f)

/-- How many passes of the list delete this file. -/
def hitCount (ps : List Pass) (f : FileEntry) : Nat :=
  (ps.filter (fun p => passHit p f)).length

/-- Two stale files, one per rule directory, for distinct rule names. -/
def c3wfs : FS := [⟨"logs", "a.log", 0, 3⟩, ⟨"temp", "x.tmp", 0, 2⟩]

/-! ## Theorems -/

/-- Inside one fixed window (every timestamp at most `resetTime`, so the reset
branch never fires) the counter climbs to `min (count + attempts) limit` and
the accepted attempts are exactly the climb. -/
theorem runWindow_in_window (ts : List Nat) (e : RateEntry)
    (hts : ∀ u ∈ ts, u ≤ e.resetTime) (hcl : e.count ≤ e.limit) :
    (runWindow ts e).1 = { e with count := min (e.count + ts.length) e.limit } ∧
      (runWindow ts e).2 = min (e.count + ts.length) e.limit - e.count := by
  induction ts generalizing e with
  | nil =>
    constructor
    · show e = { e with count := min (e.count + ([] : List Nat).length) e.limit }
      have h : min (e.count + ([] : List Nat).length) e.limit = e.count := by
        simp only [List.length_nil, Nat.add_zero]
        omega
      rw [h]
    · show 0 = min (e.count + ([] : List Nat).length) e.limit - e.count
      simp only [List.length_nil, Nat.add_zero]
      omega
  | cons t ts ih =>
    have hts' : ∀ u ∈ ts, u ≤ e.resetTime := fun u hu => hts u (List.mem_cons_of_mem _ hu)
    have ht : t ≤ e.resetTime := hts t (List.mem_cons_self _ _)
    have hnotreset : ¬ (t > e.resetTime) := by omega
    by_cases hfull : e.limit ≤ e.count
    · have hstep : checkRateLimitE t e = (e, some (e.resetTime - t)) := by
        simp [checkRateLimitE, hnotreset, hfull]
      obtain ⟨ih1, ih2⟩ := ih e hts' hcl
      simp only [runWindow, hstep]
      constructor
      · rw [ih1]
        congr 1
        simp
        omega
      · rw [ih2]
        simp
        omega
    · have hstep : checkRateLimitE t e = ({ e with count := e.count + 1 }, none) := by
        simp [checkRateLimitE, hnotreset, hfull]
      obtain ⟨ih1, ih2⟩ :=
        ih { e with count := e.count + 1 } hts' (by simp; omega)
      simp only [runWindow, hstep]
      constructor
      · rw [ih1]
        congr 1
        simp
        omega
      · rw [ih2]
        simp
        omega

/-- C4: within one fixed window a channel's counter accepts at most `limit`
sends, and after `limit` accepted sends the next attempt inside the window is
rejected with a rate-limit error carrying the remaining wait time
`resetTime - now`. -/
theorem checkRateLimit_window_bound (ts : List Nat) (t : Nat) (e : RateEntry)
    (hcount : e.count = 0) (hts : ∀ u ∈ ts, u ≤ e.resetTime) (ht : t ≤ e.resetTime) :
    (runWindow ts e).2 ≤ e.limit ∧
      (ts.length = e.limit →
        checkRateLimitE t (runWindow ts e).1 =
          ((runWindow ts e).1, some (e.resetTime - t))) := by
  obtain ⟨h1, h2⟩ := runWindow_in_window ts e hts (by omega)
  constructor
  · omega
  · intro hlen
    have hfinal : (runWindow ts e).1 = { e with count := e.limit } := by
      rw [h1]
      congr 1
      omega
    rw [hfinal]
    have hnotreset : ¬ (t > e.resetTime) := by omega
    simp [checkRateLimitE, hnotreset]

/-- Witness for `checkRateLimit_window_bound`: limit 2, window still open. -/
theorem checkRateLimit_window_bound_witness :
    (runWindow [1, 2] ⟨2, 60000, 0, 60000⟩).2 ≤ 2 ∧
      ([1, 2].length = 2 →
        checkRateLimitE 3 (runWindow [1, 2] ⟨2, 60000, 0, 60000⟩).1 =
          ((runWindow [1, 2] ⟨2, 60000, 0, 60000⟩).1, some (60000 - 3))) :=
  checkRateLimit_window_bound [1, 2] 3 ⟨2, 60000, 0, 60000⟩ rfl (by decide) (by decide)

theorem lookup_setEntry_ne (ch c : String) (e : RateEntry) (rl : RateLimits) (h : c ≠ ch) :
    (setEntry ch e rl).lookup c = rl.lookup c := by
  induction rl with
  | nil => rfl
  | cons p rest ih =>
    obtain ⟨k, v⟩ := p
    by_cases hk : k = ch
    · subst hk
      have hcne : (c == k) = false := beq_eq_false_iff_ne.mpr h
      simp [setEntry, List.lookup, hcne]
    · have hst : setEntry ch e ((k, v) :: rest) = (k, v) :: setEntry ch e rest := by
        simp [setEntry, hk]
      rw [hst]
      simp only [List.lookup]
      cases hck : (c == k) <;> simp [hck, ih]

theorem checkRateLimit_preserves_other (now : Nat) (c ch : String) (rl : RateLimits)
    (h : c ≠ ch) : ((checkRateLimit now ch rl).1).lookup c = rl.lookup c := by
  unfold checkRateLimit
  cases hl : rl.lookup ch with
  | none => rfl
  | some e =>
    simp only
    exact lookup_setEntry_ne ch c _ rl h

/-- Any error produced by `checkRateLimit` is a `RateLimited` error for that
channel. -/
theorem checkRateLimit_error_shape (now : Nat) (ch : String) (rl : RateLimits) (e : SendError)
    (h : (checkRateLimit now ch rl).2 = some e) : ∃ w, e = SendError.rateLimited ch w := by
  unfold checkRateLimit at h
  cases hl : rl.lookup ch with
  | none =>
    rw [hl] at h
    cases h
  | some en =>
    rw [hl] at h
    dsimp only at h
    rcases hE : checkRateLimitE now en with ⟨e1, rej⟩
    rw [hE] at h
    cases rej with
    | none => cases h
    | some w =>
      simp only [Option.map_some] at h
      exact ⟨w, (Option.some.injEq _ _ ▸ h).symm⟩

theorem checkRateLimits_cons (now : Nat) (c : String) (cs : List String) (rl : RateLimits) :
    checkRateLimits now (c :: cs) rl =
      match (checkRateLimit now c rl).2 with
      | some e => ((checkRateLimit now c rl).1, some e)
      | none => checkRateLimits now cs (checkRateLimit now c rl).1 := by
  rcases hE : checkRateLimit now c rl with ⟨rl1, err⟩
  cases err <;> simp [checkRateLimits, hE]

/-- If some channel of the set is at its limit inside the window, the up-front
`checkRateLimits` pass rejects with a `RateLimited` error. -/
theorem checkRateLimits_rejects (now : Nat) (channels : List String) (rl : RateLimits)
    (h : ∃ c ∈ channels, atLimit now rl c) :
    ∃ ch w, (checkRateLimits now channels rl).2 = some (SendError.rateLimited ch w) := by
  induction channels generalizing rl with
  | nil => obtain ⟨c, hc, _⟩ := h; cases hc
  | cons c cs ih =>
    rw [checkRateLimits_cons]
    cases herr : (checkRateLimit now c rl).2 with
    | some e =>
      obtain ⟨w, hw⟩ := checkRateLimit_error_shape now c rl e herr
      exact ⟨c, w, by simp [hw]⟩
    | none =>
      obtain ⟨c', hc', hat⟩ := h
      have hc : ¬ atLimit now rl c := by
        intro hlim
        obtain ⟨e, hl, hnr, hfull⟩ := hlim
        have : (checkRateLimit now c rl).2 =
            some (SendError.rateLimited c (e.resetTime - now)) := by
          simp [checkRateLimit, hl, checkRateLimitE, hnr, hfull]
        rw [herr] at this
        cases this
      have hne : c' ≠ c := fun hcc => hc (hcc ▸ hat)
      have hmem : c' ∈ cs := by
        cases hc' with
        | head => exact absurd rfl hne
        | tail _ hm => exact hm
      have hat' : atLimit now ((checkRateLimit now c rl).1) c' := by
        obtain ⟨e, hl, hnr, hfull⟩ := hat
        exact ⟨e, (checkRateLimit_preserves_other now c' c rl hne).trans hl, hnr, hfull⟩
      exact ih (checkRateLimit now c rl).1 ⟨c', hmem, hat'⟩

/-- Unfolding equation for `sendNotification` when the up-front rate-limit
pass succeeds. -/
theorem sendNotification_ok_eq (now : Nat) (deliver : String → Option String)
    (channels : List String) (st : NSState) (rl1 : RateLimits)
    (hinit : st.isInitialized = true)
    (hCRL : checkRateLimits now channels st.rateLimits = (rl1, none)) :
    sendNotification now deliver channels st =
      (let out := sendAll now deliver st.configured channels rl1
       let failed := (out.2.1.filter (fun r => r.2.isSome)).length
       let status := if failed = 0 then "sent"
                     else if failed = channels.length then "failed" else "partial"
       let n : NotifRecord := { channels := channels, status := status, results := out.2.1,
                                error := none }
       (.ok n, storeNotification n { st with rateLimits := out.1 }, out.2.2)) := by
  unfold sendNotification
  rw [hinit, hCRL]
  rfl

/-- C1 counterexample: with the mail channel at its limit and a healthy slack
channel, `sendNotification` does not skip only the mail channel — it throws
`RateLimited` for the whole notification, stores it with status "failed"
(not "partial"), and never attempts delivery on slack, even though slack
alone would have delivered (first conjunct). -/
theorem sendNotification_rate_limit_not_partial_cex :
    ((sendNotification 50000 (fun _ => none) ["slack"] c1State).1 =
      .ok { channels := ["slack"], status := "sent", results := [("slack", none)],
            error := none }) ∧
    ((sendNotification 50000 (fun _ => none) ["email", "slack"] c1State).1 =
      .error (SendError.rateLimited "email" 50000)) ∧
    ((sendNotification 50000 (fun _ => none) ["email", "slack"] c1State).2.1.notificationHistory.map
      (fun n => n.status) = ["failed"]) ∧
    ((sendNotification 50000 (fun _ => none) ["email", "slack"] c1State).2.2 = []) := by
  refine ⟨by decide, by decide, by decide, by decide⟩

/-- C1 (amended): when some channel of the notification's set is already at
its rate limit inside the current window, the up-front `checkRateLimits` call
fails the entire `sendNotification`: it throws a `RateLimited` error, the
stored notification has overall status "failed" (never "partial"), and no
channel of the set — including the healthy ones — receives a delivery
attempt. -/
theorem sendNotification_rate_limited_fails_whole (now : Nat) (deliver : String → Option String)
    (channels : List String) (st : NSState)
    (hinit : st.isInitialized = true)
    (h : ∃ c ∈ channels, atLimit now st.rateLimits c) :
    ∃ ch w,
      (sendNotification now deliver channels st).1 = .error (SendError.rateLimited ch w) ∧
      (sendNotification now deliver channels st).2.1.notificationHistory =
        trimHistory (st.notificationHistory ++
          [{ channels := channels, status := "failed", results := [],
             error := some (SendError.rateLimited ch w) }]) ∧
      (sendNotification now deliver channels st).2.2 = [] := by
  obtain ⟨ch, w, herr⟩ := checkRateLimits_rejects now channels st.rateLimits h
  refine ⟨ch, w, ?_⟩
  rcases hCRL : checkRateLimits now channels st.rateLimits with ⟨rl1, err⟩
  rw [hCRL] at herr
  dsimp only at herr
  subst herr
  refine ⟨?_, ?_, ?_⟩ <;> simp [sendNotification, hinit, hCRL, storeNotification]

/-- Witness for `sendNotification_rate_limited_fails_whole` at the concrete
state `c1State`. -/
theorem sendNotification_rate_limited_fails_whole_witness :
    c1State.isInitialized = true ∧
    ∃ ch w,
      (sendNotification 50000 (fun _ => none) ["email", "slack"] c1State).1 =
        .error (SendError.rateLimited ch w) ∧
      (sendNotification 50000 (fun _ => none) ["email", "slack"] c1State).2.1.notificationHistory =
        trimHistory (c1State.notificationHistory ++
          [{ channels := ["email", "slack"], status := "failed", results := [],
             error := some (SendError.rateLimited ch w) }]) ∧
      (sendNotification 50000 (fun _ => none) ["email", "slack"] c1State).2.2 = [] :=
  ⟨rfl, sendNotification_rate_limited_fails_whole 50000 (fun _ => none) ["email", "slack"] c1State
    rfl ⟨"email", by decide, ⟨⟨10, 60000, 10, 100000⟩, rfl, by decide, by decide⟩⟩⟩

theorem trimHistory_getLast (h : List NotifRecord) (n : NotifRecord) :
    (trimHistory (h ++ [n])).getLast? = some n := by
  unfold trimHistory
  split
  · rename_i hlen
    have hh : 1 ≤ h.length := by
      simp at hlen
      omega
    rw [List.drop_append_of_le_length hh]
    exact List.getLast?_concat _
  · exact List.getLast?_concat _

/-- C9: for every call to `sendNotification` on an initialized service —
whether it returns or throws (rate-limit rejection included; all-channel
failure returns normally with status "failed") — exactly one record is
appended to the notification history: the new history is the old one plus one
record at the end (modulo the 1000-entry cap dropping the oldest entry). -/
theorem sendNotification_appends_history_once (now : Nat) (deliver : String → Option String)
    (channels : List String) (st : NSState) (hinit : st.isInitialized = true) :
    ∃ n, (sendNotification now deliver channels st).2.1.notificationHistory
          = trimHistory (st.notificationHistory ++ [n]) ∧
        (sendNotification now deliver channels st).2.1.notificationHistory.getLast? = some n := by
  rcases hCRL : checkRateLimits now channels st.rateLimits with ⟨rl1, err⟩
  cases err with
  | some e =>
    refine ⟨{ channels := channels, status := "failed", results := [], error := some e }, ?_, ?_⟩
    · simp [sendNotification, hinit, hCRL, storeNotification]
    · simp [sendNotification, hinit, hCRL, storeNotification, trimHistory_getLast]
  | none =>
    rw [sendNotification_ok_eq now deliver channels st rl1 hinit hCRL]
    rcases hSA : sendAll now deliver st.configured channels rl1 with ⟨rl2, rest⟩
    rcases rest with ⟨results, attempted⟩
    refine ⟨{ channels := channels,
              status := if (results.filter (fun r => r.2.isSome)).length = 0 then "sent"
                        else if (results.filter (fun r => r.2.isSome)).length = channels.length
                        then "failed" else "partial",
              results := results, error := none }, ?_, ?_⟩
    · simp [storeNotification]
    · simp [storeNotification, trimHistory_getLast]

/-- Witness for `sendNotification_appends_history_once`. -/
theorem sendNotification_appends_history_once_witness :
    (⟨true, ["email"], [("email", ⟨10, 60000, 0, 60000⟩)], []⟩ : NSState).isInitialized = true ∧
    ∃ n, (sendNotification 5 (fun _ => none) ["email"]
            ⟨true, ["email"], [("email", ⟨10, 60000, 0, 60000⟩)], []⟩).2.1.notificationHistory
          = trimHistory ((⟨true, ["email"], [("email", ⟨10, 60000, 0, 60000⟩)], []⟩ :
              NSState).notificationHistory ++ [n]) ∧
        (sendNotification 5 (fun _ => none) ["email"]
            ⟨true, ["email"], [("email", ⟨10, 60000, 0, 60000⟩)], []⟩).2.1.notificationHistory.getLast?
          = some n :=
  ⟨rfl, sendNotification_appends_history_once 5 (fun _ => none) ["email"]
    ⟨true, ["email"], [("email", ⟨10, 60000, 0, 60000⟩)], []⟩ rfl⟩

/-- C2 counterexample: deploying to `staging` from branch `main` with
`force := true` still fails with the branch-mismatch error — `force` does not
let the deployment proceed past the branch check (and no warning is recorded;
the stored record is terminal "failed"). -/
theorem deploy_force_does_not_bypass_branch_cex :
    ((deploy { environment := "staging", force := true } c2Ctx []).1 =
      .error (DeployErr.branchMismatch "staging" "staging" "main")) ∧
    ((deploy { environment := "staging", force := true } c2Ctx []).2.map
      (fun d => d.status) = ["failed"]) ∧
    ((deploy { environment := "staging", force := true } c2Ctx []).2.map
      (fun d => d.buildLog) = [["Running pre-deployment checks..."]]) := by
  refine ⟨by rfl, by rfl, by rfl⟩

/-- C2 (amended): for every environment with a configured required branch,
`deploy()` on a different current branch fails with the branch-mismatch error
regardless of `force` — the branch gate never consults `force` (and `deploy`
does not even forward `force` into the pre-checks) — and the stored
deployment record is terminal with status "failed". -/
theorem deploy_branch_mismatch_regardless_of_force (opts : DeployOptions) (ctx : DeployCtx)
    (history : List Deployment) (cfg : EnvConfig) (b : String)
    (hinit : ctx.isInitialized = true)
    (henv : (environments ctx.domains).lookup opts.environment = some cfg)
    (hb : cfg.branch = some b)
    (hne : ctx.currentBranch ≠ b) :
    (deploy opts ctx history).1 =
      .error (DeployErr.branchMismatch opts.environment b ctx.currentBranch) ∧
    ∃ d, (deploy opts ctx history).2 = storeDeployment d history ∧ d.status = "failed" ∧
      d.error = some (DeployErr.branchMismatch opts.environment b ctx.currentBranch) := by
  have hpre : preDeploymentChecks ctx
      { environment := opts.environment, platform := opts.platform, status := "pending",
        branch := ctx.currentBranch, commit := none, buildLog := [], deployLog := [],
        error := none } false =
      ({ environment := opts.environment, platform := opts.platform, status := "pending",
         branch := ctx.currentBranch, commit := none,
         buildLog := ["Running pre-deployment checks..."], deployLog := [], error := none },
       some (DeployErr.branchMismatch opts.environment b ctx.currentBranch)) := by
    simp only [preDeploymentChecks, henv, hb]
    simp [hne]
  constructor
  · simp [deploy, deploy.deployFail, hinit, hpre]
  · refine ⟨{ environment := opts.environment, platform := opts.platform, status := "failed",
              branch := ctx.currentBranch, commit := none,
              buildLog := ["Running pre-deployment checks..."], deployLog := [],
              error := some (DeployErr.branchMismatch opts.environment b ctx.currentBranch) },
            ?_, rfl, rfl⟩
    simp [deploy, deploy.deployFail, hinit, hpre]

/-- Witness for `deploy_branch_mismatch_regardless_of_force` with
`force := true`. -/
theorem deploy_branch_mismatch_regardless_of_force_witness :
    c2Ctx.isInitialized = true ∧
    ((deploy { environment := "staging", force := true } c2Ctx []).1 =
      .error (DeployErr.branchMismatch "staging" "staging" c2Ctx.currentBranch) ∧
    ∃ d, (deploy { environment := "staging", force := true } c2Ctx []).2 =
        storeDeployment d [] ∧ d.status = "failed" ∧
      d.error = some (DeployErr.branchMismatch "staging" "staging" c2Ctx.currentBranch)) :=
  ⟨rfl, deploy_branch_mismatch_regardless_of_force { environment := "staging", force := true }
    c2Ctx [] ⟨some "staging", true, "vercel", none⟩ "staging" rfl rfl rfl (by decide)⟩

theorem statusRank_error : statusRank "error" = 3 := by simp [statusRank]

theorem statusRank_unhealthy : statusRank "unhealthy" = 2 := by simp [statusRank]

theorem statusRank_warning : statusRank "warning" = 1 := by simp [statusRank]

theorem statusRank_healthy : statusRank "healthy" = 0 := by simp [statusRank]

theorem statusRank_le_three (s : String) : statusRank s ≤ 3 := by
  unfold statusRank
  split_ifs <;> omega

theorem statusRank_le_two (s : String) (h : s ≠ "error") : statusRank s ≤ 2 := by
  unfold statusRank
  split_ifs <;> simp_all

theorem statusRank_le_one (s : String) (h : s ≠ "error") (h2 : s ≠ "unhealthy") :
    statusRank s ≤ 1 := by
  unfold statusRank
  split_ifs <;> simp_all

theorem statusRank_le_zero (s : String) (h : s ≠ "error") (h2 : s ≠ "unhealthy")
    (h3 : s ≠ "warning") : statusRank s ≤ 0 := by
  unfold statusRank
  split_ifs <;> simp_all

/-- C5: every `checkHealth` report's overall status is the worst sub-check
status under healthy < warning < unhealthy < error (an upper bound that is
attained, with "healthy" for the empty battery), and inside the alert
cooldown `checkForAlerts` contributes no alerts and leaves the state
untouched, however the breach persists. -/
theorem checkHealth_worst_status_and_cooldown (now : Nat)
    (checkOutcomes : List (String × CheckResult)) (st : HMState) (last : Nat)
    (hla : st.lastAlert = some last) (hcd : now - last < st.alertCooldown) :
    ((∀ p ∈ (checkHealth now checkOutcomes st).1.checks,
        statusRank p.2.status ≤ statusRank (checkHealth now checkOutcomes st).1.overall) ∧
      ((checkHealth now checkOutcomes st).1.overall = "healthy" ∨
        ∃ p ∈ (checkHealth now checkOutcomes st).1.checks,
          p.2.status = (checkHealth now checkOutcomes st).1.overall)) ∧
    (checkHealth now checkOutcomes st).1.alerts = [] ∧
    (checkHealth now checkOutcomes st).2 = st := by
  have hcfa : checkForAlerts now st checkOutcomes = ([], st) := by
    unfold checkForAlerts
    rw [hla]
    simp [hcd]
  have hch : checkHealth now checkOutcomes st =
      ({ overall := determineOverallHealth checkOutcomes, checks := checkOutcomes,
         alerts := [] }, st) := by
    unfold checkHealth
    rw [hcfa]
  rw [hch]
  dsimp only
  refine ⟨⟨?_, ?_⟩, rfl, rfl⟩
  · intro p hp
    have hstat : ∀ s : String, p.2.status = s →
        (checkOutcomes.map (fun c => c.2.status)).contains s = true := by
      intro s hs
      exact List.elem_eq_true_of_mem (hs ▸ List.mem_map_of_mem _ hp)
    unfold determineOverallHealth
    dsimp only
    by_cases he : ((checkOutcomes.map (fun c => c.2.status)).contains "error") = true
    · rw [if_pos he, statusRank_error]
      exact statusRank_le_three _
    · rw [if_neg he]
      have hpne : p.2.status ≠ "error" := fun hs => he (hstat _ hs)
      by_cases hu : ((checkOutcomes.map (fun c => c.2.status)).contains "unhealthy") = true
      · rw [if_pos hu, statusRank_unhealthy]
        exact statusRank_le_two _ hpne
      · rw [if_neg hu]
        have hpnu : p.2.status ≠ "unhealthy" := fun hs => hu (hstat _ hs)
        by_cases hw : ((checkOutcomes.map (fun c => c.2.status)).contains "warning") = true
        · rw [if_pos hw, statusRank_warning]
          exact statusRank_le_one _ hpne hpnu
        · rw [if_neg hw, statusRank_healthy]
          have hpnw : p.2.status ≠ "warning" := fun hs => hw (hstat _ hs)
          exact statusRank_le_zero _ hpne hpnu hpnw
  · unfold determineOverallHealth
    dsimp only
    by_cases he : ((checkOutcomes.map (fun c => c.2.status)).contains "error") = true
    · rw [if_pos he]
      obtain ⟨p, hp, hs⟩ := List.exists_of_mem_map (List.mem_of_elem_eq_true he)
      exact Or.inr ⟨p, hp, hs⟩
    · rw [if_neg he]
      by_cases hu : ((checkOutcomes.map (fun c => c.2.status)).contains "unhealthy") = true
      · rw [if_pos hu]
        obtain ⟨p, hp, hs⟩ := List.exists_of_mem_map (List.mem_of_elem_eq_true hu)
        exact Or.inr ⟨p, hp, hs⟩
      · rw [if_neg hu]
        by_cases hw : ((checkOutcomes.map (fun c => c.2.status)).contains "warning") = true
        · rw [if_pos hw]
          obtain ⟨p, hp, hs⟩ := List.exists_of_mem_map (List.mem_of_elem_eq_true hw)
          exact Or.inr ⟨p, hp, hs⟩
        · rw [if_neg hw]
          exact Or.inl rfl

/-- Witness for `checkHealth_worst_status_and_cooldown`: a persisting breach
(database in error) examined again 60 s after the previous alert, inside the
5-minute cooldown. -/
theorem checkHealth_worst_status_and_cooldown_witness :
    (⟨some 1000, 300000, {}, 100⟩ : HMState).lastAlert = some 1000 ∧
    ((∀ p ∈ (checkHealth 61000 [("database", { status := "error" })]
        ⟨some 1000, 300000, {}, 100⟩).1.checks,
        statusRank p.2.status ≤ statusRank (checkHealth 61000
          [("database", { status := "error" })] ⟨some 1000, 300000, {}, 100⟩).1.overall) ∧
      ((checkHealth 61000 [("database", { status := "error" })]
          ⟨some 1000, 300000, {}, 100⟩).1.overall = "healthy" ∨
        ∃ p ∈ (checkHealth 61000 [("database", { status := "error" })]
            ⟨some 1000, 300000, {}, 100⟩).1.checks,
          p.2.status = (checkHealth 61000 [("database", { status := "error" })]
            ⟨some 1000, 300000, {}, 100⟩).1.overall)) ∧
    (checkHealth 61000 [("database", { status := "error" })]
        ⟨some 1000, 300000, {}, 100⟩).1.alerts = [] ∧
    (checkHealth 61000 [("database", { status := "error" })]
        ⟨some 1000, 300000, {}, 100⟩).2 = ⟨some 1000, 300000, {}, 100⟩ :=
  ⟨rfl, checkHealth_worst_status_and_cooldown 61000 [("database", { status := "error" })]
    ⟨some 1000, 300000, {}, 100⟩ 1000 rfl (by decide)⟩

/-- C6: when a scheduled job's handler throws, the cron callback catches the
error and emits a severity-"high" `sendAlert` carrying the handler's message;
the job stays registered (the registered-task table is untouched — nothing
unregisters or disables it), and the handler's error never escapes the
callback: the callback's own outcome depends only on the alert delivery
(`ok` when the alert goes through). -/
theorem scheduled_task_failure_isolated (name e : String) (alertDelivery : Option String)
    (st : SchedState) :
    (cronFire name (.error e) alertDelivery st).2.scheduledTasks = st.scheduledTasks ∧
    (cronFire name (.error e) alertDelivery st).2.alertsAttempted =
      st.alertsAttempted ++
        [{ type := "error", title := "Automation Task Failed: " ++ name, message := e,
           severity := "high" }] ∧
    (cronFire name (.error e) alertDelivery st).1 =
      alertDelivery.elim (Except.ok ()) Except.error :=
  ⟨rfl, rfl, rfl⟩

/-- C8: the report's data holds one entry per requested section, in order:
sections whose collector throws contribute an `{error: message}` placeholder
and every remaining section is still generated — a section error never aborts
the report. -/
theorem generateReport_section_errors_isolated (collect : String → Except String String)
    (sections : List String) :
    (generateReport collect sections).data =
      sections.map (fun s => (s,
        match collect s with
        | .ok d => SectionData.ok d
        | .error m => SectionData.errorPlaceholder m)) := by
  unfold generateReport
  dsimp only
  induction sections with
  | nil => rfl
  | cons s rest ih =>
    simp only [generateSections, List.map_cons]
    exact congrArg _ ih

/-- C7 counterexample: with S3 failing and Drive succeeding, the backup still
succeeds and both targets were attempted (first two conjuncts — the
independence half of the claim holds), but the returned backup record is
bit-for-bit the record of a run where the S3 upload succeeded: the per-target
failure is not recorded on the backup record (its `cloudStorage` only says
"configured"). -/
theorem performBackup_failure_not_recorded_cex :
    ((performBackup c7Run c7St).1 =
      .ok { size := 100, cloudStorage := [("s3", "configured"), ("googleDrive", "configured")] }) ∧
    ((performBackup c7Run c7St).2.uploadLog = [("s3", false), ("googleDrive", true)]) ∧
    ((performBackup c7Run c7St).1 = (performBackup { c7Run with s3Result := none } c7St).1) :=
  ⟨rfl, rfl, rfl⟩

/-- C7 (amended): `performBackup` attempts every configured cloud target and
one target's failure neither fails the backup nor prevents the other
attempts; however the per-target failure is only logged — the returned
backup record's `cloudStorage` lists each configured target as "configured"
and is independent of the upload outcomes. -/
theorem performBackup_uploads_best_effort (run : BackupRun) (st : DBState) (size : Nat)
    (hinit : st.isInitialized = true)
    (hexp : run.exportResult = .ok ())
    (harc : run.archiveResult = .ok size) :
    (performBackup run st).1 =
      .ok { size := size, cloudStorage := getCloudStorageStatus run } ∧
    (performBackup run st).2.uploadLog = st.uploadLog ++
      ((if run.s3Configured then [("s3", run.s3Result.isNone)] else []) ++
       (if run.driveConfigured then [("googleDrive", run.driveResult.isNone)] else [])) ∧
    ∀ s3r dr : Option String,
      (performBackup { run with s3Result := s3r, driveResult := dr } st).1 =
        (performBackup run st).1 := by
  refine ⟨?_, ?_, ?_⟩
  · simp [performBackup, hinit, hexp, harc]
  · simp [performBackup, hinit, hexp, harc, updateBackupStats, uploadToCloud]
  · intro s3r dr
    simp [performBackup, hinit, hexp, harc, getCloudStorageStatus]

/-- Witness for `performBackup_uploads_best_effort` at the run `c7Run`. -/
theorem performBackup_uploads_best_effort_witness :
    c7St.isInitialized = true ∧ c7Run.exportResult = .ok () ∧ c7Run.archiveResult = .ok 100 ∧
    ((performBackup c7Run c7St).1 =
      .ok { size := 100, cloudStorage := getCloudStorageStatus c7Run } ∧
    (performBackup c7Run c7St).2.uploadLog = c7St.uploadLog ++
      ((if c7Run.s3Configured then [("s3", c7Run.s3Result.isNone)] else []) ++
       (if c7Run.driveConfigured then [("googleDrive", c7Run.driveResult.isNone)] else [])) ∧
    ∀ s3r dr : Option String,
      (performBackup { c7Run with s3Result := s3r, driveResult := dr } c7St).1 =
        (performBackup c7Run c7St).1) :=
  ⟨rfl, rfl, rfl, performBackup_uploads_best_effort c7Run c7St 100 rfl rfl rfl⟩

/-- C10: `updateBackupStats` preserves the invariant
totalBackups = successfulBackups + failedBackups — it bumps the total and
exactly one of the two tallies — and `performBackup` performs exactly one
stats update per run, on both its success and its failure path (so the
invariant carries over whole runs). -/
theorem updateBackupStats_invariant_once (a : Option Nat) (b : Bool) (st0 : DBState)
    (run : BackupRun) (st : DBState)
    (h0 : st0.backupStats.totalBackups =
      st0.backupStats.successfulBackups + st0.backupStats.failedBackups)
    (hinit : st.isInitialized = true)
    (hinv : st.backupStats.totalBackups =
      st.backupStats.successfulBackups + st.backupStats.failedBackups) :
    ((updateBackupStats a b st0).backupStats.totalBackups =
      (updateBackupStats a b st0).backupStats.successfulBackups +
        (updateBackupStats a b st0).backupStats.failedBackups) ∧
    ((updateBackupStats a b st0).backupStats.totalBackups =
      st0.backupStats.totalBackups + 1) ∧
    ((updateBackupStats a b st0).statsWrites = st0.statsWrites + 1) ∧
    ((performBackup run st).2.statsWrites = st.statsWrites + 1) ∧
    ((performBackup run st).2.backupStats.totalBackups =
      (performBackup run st).2.backupStats.successfulBackups +
        (performBackup run st).2.backupStats.failedBackups) := by
  have hupd : ∀ (a' : Option Nat) (b' : Bool) (s : DBState),
      s.backupStats.totalBackups = s.backupStats.successfulBackups + s.backupStats.failedBackups →
      (updateBackupStats a' b' s).backupStats.totalBackups =
        (updateBackupStats a' b' s).backupStats.successfulBackups +
          (updateBackupStats a' b' s).backupStats.failedBackups ∧
      (updateBackupStats a' b' s).backupStats.totalBackups =
        s.backupStats.totalBackups + 1 ∧
      (updateBackupStats a' b' s).statsWrites = s.statsWrites + 1 := by
    intro a' b' s hs
    unfold updateBackupStats
    cases b' <;> simp <;> omega
  obtain ⟨h1, h2, h3⟩ := hupd a b st0 h0
  refine ⟨h1, h2, h3, ?_, ?_⟩
  · unfold performBackup
    rw [hinit]
    simp only [Bool.true_eq_false, if_false]
    cases hexp : run.exportResult with
    | error e => exact (hupd none false st hinv).2.2
    | ok u =>
      cases harc : run.archiveResult with
      | error e => exact (hupd none false st hinv).2.2
      | ok size =>
        have := (hupd (some size) true (uploadToCloud run st) (by
          simp [uploadToCloud, hinv])).2.2
        simpa [uploadToCloud] using this
  · unfold performBackup
    rw [hinit]
    simp only [Bool.true_eq_false, if_false]
    cases hexp : run.exportResult with
    | error e => exact (hupd none false st hinv).1
    | ok u =>
      cases harc : run.archiveResult with
      | error e => exact (hupd none false st hinv).1
      | ok size =>
        exact (hupd (some size) true (uploadToCloud run st) (by simp [uploadToCloud, hinv])).1

/-- Witness for `updateBackupStats_invariant_once`. -/
theorem updateBackupStats_invariant_once_witness :
    (c7St.backupStats.totalBackups =
      c7St.backupStats.successfulBackups + c7St.backupStats.failedBackups) ∧
    c7St.isInitialized = true ∧
    (((updateBackupStats (some 5) true c7St).backupStats.totalBackups =
      (updateBackupStats (some 5) true c7St).backupStats.successfulBackups +
        (updateBackupStats (some 5) true c7St).backupStats.failedBackups) ∧
    ((updateBackupStats (some 5) true c7St).backupStats.totalBackups =
      c7St.backupStats.totalBackups + 1) ∧
    ((updateBackupStats (some 5) true c7St).statsWrites = c7St.statsWrites + 1) ∧
    ((performBackup c7Run c7St).2.statsWrites = c7St.statsWrites + 1) ∧
    ((performBackup c7Run c7St).2.backupStats.totalBackups =
      (performBackup c7Run c7St).2.backupStats.successfulBackups +
        (performBackup c7Run c7St).2.backupStats.failedBackups)) :=
  ⟨rfl, rfl, updateBackupStats_invariant_once (some 5) true c7St c7Run c7St rfl rfl rfl⟩

/-- C3 counterexample: running `performCleanup` with the rule list
`["logs", "logs"]` (a rule set — the claim quantifies over every rule set)
over one stale log file.  The dry run deletes nothing and reports one
would-delete file for each pass, but rerunning the same rules with
`dryRun=false` on the unchanged state deletes the file in the first pass
only: the second pass's `filesDeleted` is 0 where the dry run reported 1, and
it is the second pass's result that `cleanup.results["logs"]` retains. -/
theorem performCleanup_dry_count_mismatch_cex :
    ((performCleanup true (100 * dayMs) ["logs", "logs"] c3fs).2 = c3fs) ∧
    ((performCleanup true (100 * dayMs) ["logs", "logs"] c3fs).1.map
      (fun x => (x.1, x.2.wouldDelete)) = [("logs", 1)]) ∧
    ((performCleanup false (100 * dayMs) ["logs", "logs"] c3fs).1.map
      (fun x => (x.1, x.2.filesDeleted)) = [("logs", 0)]) := by
  refine ⟨by decide, by decide, by decide⟩

theorem eq_of_samePath (fs : FS) (hnd : NodupPaths fs) {f g : FileEntry}
    (hf : f ∈ fs) (hg : g ∈ fs) (hsp : samePath g f = true) : g = f := by
  have hsp' : g.dir = f.dir ∧ g.name = f.name := by
    simpa [samePath] using hsp
  exact List.inj_on_of_nodup_map hnd hg hf (by simp [hsp'.1, hsp'.2])

theorem NodupPaths_filter (fs : FS) (p : FileEntry → Bool) (h : NodupPaths fs) :
    NodupPaths (fs.filter p) :=
  List.Nodup.sublist (List.Sublist.map _ (List.filter_sublist fs)) h

theorem processFile_dry_old (cutoff : Nat) (r : DirResult) (fs : FS) (f : FileEntry)
    (h : f.mtime < cutoff) :
    processFile true cutoff (r, fs) f =
      (⟨r.filesFound + 1, r.filesDeleted, r.bytesFreed, r.wouldDelete + 1⟩, fs) := by
  simp [processFile, h]

theorem processFile_dry_new (cutoff : Nat) (r : DirResult) (fs : FS) (f : FileEntry)
    (h : ¬ f.mtime < cutoff) :
    processFile true cutoff (r, fs) f =
      (⟨r.filesFound + 1, r.filesDeleted, r.bytesFreed, r.wouldDelete⟩, fs) := by
  simp [processFile, h]

theorem processFile_wet_old (cutoff : Nat) (r : DirResult) (fs : FS) (f : FileEntry)
    (h : f.mtime < cutoff) :
    processFile false cutoff (r, fs) f =
      (⟨r.filesFound + 1, r.filesDeleted + 1, r.bytesFreed + f.size, r.wouldDelete⟩,
       removeFile fs f) := by
  simp [processFile, h]

theorem processFile_wet_new (cutoff : Nat) (r : DirResult) (fs : FS) (f : FileEntry)
    (h : ¬ f.mtime < cutoff) :
    processFile false cutoff (r, fs) f =
      (⟨r.filesFound + 1, r.filesDeleted, r.bytesFreed, r.wouldDelete⟩, fs) := by
  simp [processFile, h]

/-- The dry-run file loop: one would-delete log line per old file, state
untouched. -/
theorem processFold_dry (cutoff : Nat) (l : List FileEntry) (r : DirResult) (fs : FS) :
    (l.foldl (processFile true cutoff) (r, fs)).1.wouldDelete =
      r.wouldDelete + (l.filter (oldB cutoff)).length ∧
    (l.foldl (processFile true cutoff) (r, fs)).2 = fs := by
  induction l generalizing r fs with
  | nil => simp
  | cons f l ih =>
    by_cases hold : f.mtime < cutoff
    · rw [List.foldl_cons, processFile_dry_old cutoff r fs f hold]
      obtain ⟨ih1, ih2⟩ := ih ⟨r.filesFound + 1, r.filesDeleted, r.bytesFreed, r.wouldDelete + 1⟩ fs
      refine ⟨?_, ih2⟩
      rw [ih1]
      simp [List.filter_cons, oldB, hold]
      omega
    · rw [List.foldl_cons, processFile_dry_new cutoff r fs f hold]
      obtain ⟨ih1, ih2⟩ := ih ⟨r.filesFound + 1, r.filesDeleted, r.bytesFreed, r.wouldDelete⟩ fs
      refine ⟨?_, ih2⟩
      rw [ih1]
      simp [List.filter_cons, oldB, hold]

/-- The wet file loop: one deletion per old file of the (precomputed) list,
and the state loses exactly the paths of those files. -/
theorem processFold_wet (cutoff : Nat) (l : List FileEntry) (r : DirResult) (fs : FS) :
    (l.foldl (processFile false cutoff) (r, fs)).1.filesDeleted =
      r.filesDeleted + (l.filter (oldB cutoff)).length ∧
    (l.foldl (processFile false cutoff) (r, fs)).2 =
      fs.filter (fun g => !((l.filter (oldB cutoff)).any (fun f => samePath g f))) := by
  induction l generalizing r fs with
  | nil => simp
  | cons f l ih =>
    by_cases hold : f.mtime < cutoff
    · rw [List.foldl_cons, processFile_wet_old cutoff r fs f hold]
      obtain ⟨ih1, ih2⟩ :=
        ih ⟨r.filesFound + 1, r.filesDeleted + 1, r.bytesFreed + f.size, r.wouldDelete⟩
          (removeFile fs f)
      constructor
      · rw [ih1]
        simp [List.filter_cons, oldB, hold]
        omega
      · rw [ih2]
        unfold removeFile
        rw [List.filter_filter]
        apply List.filter_congr
        intro g _
        have hfc : (f :: l).filter (oldB cutoff) = f :: l.filter (oldB cutoff) := by
          simp [List.filter_cons, oldB, hold]
        rw [hfc, List.any_cons]
        cases hsp : samePath g f <;> simp [hsp]
    · rw [List.foldl_cons, processFile_wet_new cutoff r fs f hold]
      obtain ⟨ih1, ih2⟩ :=
        ih ⟨r.filesFound + 1, r.filesDeleted, r.bytesFreed, r.wouldDelete⟩ fs
      constructor
      · rw [ih1]
        simp [List.filter_cons, oldB, hold]
      · rw [ih2]
        simp [List.filter_cons, oldB, hold]

theorem filter_old_pre_eq_hit (c : Nat) (ps : List String) (d : String) (fs : FS) :
    fs.filter (fun a => oldB c a && preB ps d a) = fs.filter (hitB c ps d) := by
  apply List.filter_congr
  intro a _
  unfold hitB
  exact Bool.and_comm _ _

theorem cleanupDirectory_dry_spec (now : Nat) (rule : Rule) (d : String) (fs : FS) :
    (cleanupDirectory true now rule d fs).2 = fs ∧
    (cleanupDirectory true now rule d fs).1.wouldDelete =
      (fs.filter (hitB (dirCutoff now rule) rule.patterns d)).length := by
  unfold cleanupDirectory getFilesInDirectory
  obtain ⟨h1, h2⟩ :=
    processFold_dry (dirCutoff now rule) (fs.filter (preB rule.patterns d)) ⟨0, 0, 0, 0⟩ fs
  refine ⟨h2, ?_⟩
  rw [h1, List.filter_filter]
  simp only [Nat.zero_add]
  rw [filter_old_pre_eq_hit]

theorem cleanupDirectory_wet_count (now : Nat) (rule : Rule) (d : String) (fs : FS) :
    (cleanupDirectory false now rule d fs).1.filesDeleted =
      (fs.filter (hitB (dirCutoff now rule) rule.patterns d)).length := by
  unfold cleanupDirectory getFilesInDirectory
  have h :=
    (processFold_wet (dirCutoff now rule) (fs.filter (preB rule.patterns d)) ⟨0, 0, 0, 0⟩ fs).1
  rw [h, List.filter_filter]
  simp only [Nat.zero_add]
  rw [filter_old_pre_eq_hit]

theorem cleanupDirectory_wet_fs (now : Nat) (rule : Rule) (d : String) (fs : FS)
    (hnd : NodupPaths fs) :
    (cleanupDirectory false now rule d fs).2 =
      fs.filter (fun g => !(hitB (dirCutoff now rule) rule.patterns d g)) := by
  unfold cleanupDirectory getFilesInDirectory
  have h :=
    (processFold_wet (dirCutoff now rule) (fs.filter (preB rule.patterns d)) ⟨0, 0, 0, 0⟩ fs).2
  rw [h]
  apply List.filter_congr
  intro g hg
  rw [List.filter_filter]
  by_cases hh : hitB (dirCutoff now rule) rule.patterns d g = true
  · have hmem : g ∈ fs.filter
        (fun a => oldB (dirCutoff now rule) a && preB rule.patterns d a) := by
      refine List.mem_filter.mpr ⟨hg, ?_⟩
      have := hh
      unfold hitB at this
      rw [Bool.and_comm] at this
      exact this
    have hany : (fs.filter
        (fun a => oldB (dirCutoff now rule) a && preB rule.patterns d a)).any
        (fun f => samePath g f) = true :=
      List.any_eq_true.mpr ⟨g, hmem, by simp [samePath]⟩
    rw [hany, hh]
  · have hfalse : hitB (dirCutoff now rule) rule.patterns d g = false :=
      Bool.not_eq_true _ ▸ (by simpa using hh)
    have hany : (fs.filter
        (fun a => oldB (dirCutoff now rule) a && preB rule.patterns d a)).any
        (fun f => samePath g f) = false := by
      by_contra hc
      have hc' : (fs.filter
          (fun a => oldB (dirCutoff now rule) a && preB rule.patterns d a)).any
          (fun f => samePath g f) = true := by
        revert hc
        cases (fs.filter
            (fun a => oldB (dirCutoff now rule) a && preB rule.patterns d a)).any
            (fun f => samePath g f) <;> simp
      obtain ⟨f, hf, hsp⟩ := List.any_eq_true.mp hc'
      obtain ⟨hfmem, hfhit⟩ := List.mem_filter.mp hf
      have hgf : g = f := eq_of_samePath fs hnd hfmem hg hsp
      rw [← hgf] at hfhit
      have : hitB (dirCutoff now rule) rule.patterns d g = true := by
        unfold hitB
        rw [Bool.and_comm]
        exact hfhit
      exact hh this
    rw [hany, hfalse]

theorem hitAny_false_of_count (P Q : List Pass) (p : Pass) (f : FileEntry)
    (hp : p ∈ Q) (hhit : passHit p f = true) (h : hitCount (P ++ Q) f ≤ 1) :
    hitAny P f = false := by
  by_contra hc
  have hc' : hitAny P f = true := by
    revert hc
    cases hitAny P f <;> simp
  obtain ⟨q, hq, hqhit⟩ := List.any_eq_true.mp hc'
  unfold hitCount at h
  rw [List.filter_append, List.length_append] at h
  have h1 : 0 < (P.filter (fun p => passHit p f)).length :=
    List.length_pos.mpr (List.ne_nil_of_mem (List.mem_filter.mpr ⟨hq, hqhit⟩))
  have h2 : 0 < (Q.filter (fun p => passHit p f)).length :=
    List.length_pos.mpr (List.ne_nil_of_mem (List.mem_filter.mpr ⟨hp, hhit⟩))
  omega

theorem cleanupDirs_cons (dryRun : Bool) (now : Nat) (rule : Rule) (d : String)
    (ds : List String) (acc : DirResult) (fs : FS) :
    cleanupDirs dryRun now rule (d :: ds) acc fs =
      cleanupDirs dryRun now rule ds
        (addResult acc (cleanupDirectory dryRun now rule d fs).1)
        (cleanupDirectory dryRun now rule d fs).2 := rfl

/-- Dry rule pass over its directory list: state untouched, would-delete log
lines summed per directory against the unchanging state. -/
theorem cleanupDirs_dry_spec (now : Nat) (rule : Rule) (ds : List String) (acc : DirResult)
    (fs : FS) :
    (cleanupDirs true now rule ds acc fs).1.wouldDelete =
      acc.wouldDelete + ((ds.map (fun d =>
        (fs.filter (hitB (dirCutoff now rule) rule.patterns d)).length)).sum) ∧
    (cleanupDirs true now rule ds acc fs).2 = fs := by
  induction ds generalizing acc with
  | nil => simp [cleanupDirs]
  | cons d ds ih =>
    rw [cleanupDirs_cons]
    obtain ⟨hfs, hwd⟩ := cleanupDirectory_dry_spec now rule d fs
    rw [hfs]
    obtain ⟨ih1, ih2⟩ := ih (addResult acc (cleanupDirectory true now rule d fs).1)
    refine ⟨?_, ih2⟩
    rw [ih1]
    simp only [addResult, List.map_cons, List.sum_cons]
    rw [hwd]
    omega

/-- Wet rule pass over its directory list, running on the state left by a
list `P` of earlier passes: when no file is deleted by two passes of the
whole run, each directory still deletes exactly the files the dry run would
log on the original state, and the state afterwards has lost exactly the
files hit by `P` and by this rule's passes. -/
theorem cleanupDirs_wet_spec (now : Nat) (rule : Rule) (ds : List String) (P : List Pass)
    (fs0 : FS) (acc : DirResult)
    (hnd : NodupPaths fs0)
    (hdisj : ∀ f ∈ fs0, hitCount (P ++ ds.map (mkPass now rule)) f ≤ 1) :
    (cleanupDirs false now rule ds acc (fs0.filter (fun g => !(hitAny P g)))).1.filesDeleted =
      acc.filesDeleted + ((ds.map (fun d =>
        (fs0.filter (hitB (dirCutoff now rule) rule.patterns d)).length)).sum) ∧
    (cleanupDirs false now rule ds acc (fs0.filter (fun g => !(hitAny P g)))).2 =
      fs0.filter (fun g => !(hitAny (P ++ ds.map (mkPass now rule)) g)) := by
  induction ds generalizing P acc with
  | nil => simp [cleanupDirs]
  | cons d ds ih =>
    have hpassmem : mkPass now rule d ∈ (d :: ds).map (mkPass now rule) := by simp
    have hcnt : (fs0.filter (fun g => !(hitAny P g))).filter
        (hitB (dirCutoff now rule) rule.patterns d) =
        fs0.filter (hitB (dirCutoff now rule) rule.patterns d) := by
      rw [List.filter_filter]
      apply List.filter_congr
      intro g hg
      by_cases hh : hitB (dirCutoff now rule) rule.patterns d g = true
      · have hP : hitAny P g = false :=
          hitAny_false_of_count P ((d :: ds).map (mkPass now rule)) (mkPass now rule d) g
            hpassmem hh (hdisj g hg)
        rw [hh, hP]
        rfl
      · have hh' : hitB (dirCutoff now rule) rule.patterns d g = false := by
          revert hh
          cases hitB (dirCutoff now rule) rule.patterns d g <;> simp
        rw [hh']
        rfl
    have hfs2 : (fs0.filter (fun g => !(hitAny P g))).filter
        (fun g => !(hitB (dirCutoff now rule) rule.patterns d g)) =
        fs0.filter (fun g => !(hitAny (P ++ [mkPass now rule d]) g)) := by
      rw [List.filter_filter]
      apply List.filter_congr
      intro g hg
      unfold hitAny
      rw [List.any_append]
      have hone : [mkPass now rule d].any (fun p => passHit p g) =
          hitB (dirCutoff now rule) rule.patterns d g := by
        simp [passHit, mkPass]
      rw [hone]
      cases hitB (dirCutoff now rule) rule.patterns d g <;>
        cases P.any (fun p => passHit p g) <;> rfl
    rw [cleanupDirs_cons]
    have hcount := cleanupDirectory_wet_count now rule d (fs0.filter (fun g => !(hitAny P g)))
    have hfs' := cleanupDirectory_wet_fs now rule d (fs0.filter (fun g => !(hitAny P g)))
      (NodupPaths_filter _ _ hnd)
    rw [hfs', hfs2]
    have hdisj' : ∀ f ∈ fs0,
        hitCount ((P ++ [mkPass now rule d]) ++ ds.map (mkPass now rule)) f ≤ 1 := by
      intro f hf
      have h := hdisj f hf
      rw [List.append_assoc]
      simpa using h
    obtain ⟨ih1, ih2⟩ := ih (P ++ [mkPass now rule d])
      (addResult acc (cleanupDirectory false now rule d
        (fs0.filter (fun g => !(hitAny P g)))).1) hdisj'
    constructor
    · rw [ih1]
      simp only [addResult, List.map_cons, List.sum_cons]
      rw [hcount, hcnt]
      omega
    · rw [ih2]
      apply List.filter_congr
      intro g _
      unfold hitAny
      rw [List.append_assoc]
      rfl

theorem cleanupRule_dry_spec (now : Nat) (rule : Rule) (fs : FS) :
    (cleanupRule true now rule fs).1.wouldDelete =
      ((rule.directories.map (fun d =>
        (fs.filter (hitB (dirCutoff now rule) rule.patterns d)).length)).sum) ∧
    (cleanupRule true now rule fs).2 = fs := by
  unfold cleanupRule
  have h := cleanupDirs_dry_spec now rule rule.directories ⟨0, 0, 0, 0⟩ fs
  simpa using h

theorem cleanupRule_wet_spec (now : Nat) (rule : Rule) (P : List Pass) (fs0 : FS)
    (hnd : NodupPaths fs0)
    (hdisj : ∀ f ∈ fs0, hitCount (P ++ rulePasses now rule) f ≤ 1) :
    (cleanupRule false now rule (fs0.filter (fun g => !(hitAny P g)))).1.filesDeleted =
      ((rule.directories.map (fun d =>
        (fs0.filter (hitB (dirCutoff now rule) rule.patterns d)).length)).sum) ∧
    (cleanupRule false now rule (fs0.filter (fun g => !(hitAny P g)))).2 =
      fs0.filter (fun g => !(hitAny (P ++ rulePasses now rule) g)) := by
  unfold cleanupRule
  have h := cleanupDirs_wet_spec now rule rule.directories P fs0 ⟨0, 0, 0, 0⟩ hnd
    (by simpa [rulePasses] using hdisj)
  simpa [rulePasses] using h

theorem setResult_map (rsD rsW : List (String × DirResult)) (n : String) (rD rW : DirResult)
    (h : rsD.map (fun x => (x.1, x.2.wouldDelete)) = rsW.map (fun x => (x.1, x.2.filesDeleted)))
    (hr : rD.wouldDelete = rW.filesDeleted) :
    (setResult rsD n rD).map (fun x => (x.1, x.2.wouldDelete)) =
      (setResult rsW n rW).map (fun x => (x.1, x.2.filesDeleted)) := by
  induction rsD generalizing rsW with
  | nil =>
    cases rsW with
    | nil => simp [setResult, hr]
    | cons b t => simp at h
  | cons a t ih =>
    cases rsW with
    | nil => simp at h
    | cons b u =>
      obtain ⟨a1, a2⟩ := a
      obtain ⟨b1, b2⟩ := b
      simp only [List.map_cons, List.cons.injEq, Prod.mk.injEq] at h
      obtain ⟨⟨hk, hv⟩, ht⟩ := h
      subst hk
      by_cases hkn : a1 = n
      · subst hkn
        simp [setResult, hr, hv, ht]
      · simp only [setResult, if_neg hkn, List.map_cons, List.cons.injEq, Prod.mk.injEq]
        exact ⟨⟨by trivial, hv⟩, ih u ht⟩

/-- The run loop compared dry against wet: on disjoint passes the per-rule
reported counts agree position for position, the dry run leaves the state
alone, and the wet run removes exactly the hit files. -/
theorem cleanupRun_spec (now : Nat) (table : List (String × Rule)) (ns : List String)
    (fs0 : FS) (hnd : NodupPaths fs0) :
    ∀ (P : List Pass) (resD resW : List (String × DirResult)),
    (∀ f ∈ fs0, hitCount (P ++ runPasses now table ns) f ≤ 1) →
    (resD.map (fun x => (x.1, x.2.wouldDelete)) =
      resW.map (fun x => (x.1, x.2.filesDeleted))) →
    (cleanupRun true now table ns resD fs0).1.map (fun x => (x.1, x.2.wouldDelete)) =
      (cleanupRun false now table ns resW
        (fs0.filter (fun g => !(hitAny P g)))).1.map (fun x => (x.1, x.2.filesDeleted)) ∧
    (cleanupRun true now table ns resD fs0).2 = fs0 ∧
    (cleanupRun false now table ns resW (fs0.filter (fun g => !(hitAny P g)))).2 =
      fs0.filter (fun g => !(hitAny (P ++ runPasses now table ns) g)) := by
  induction ns with
  | nil =>
    intro P resD resW hdisj hres
    refine ⟨hres, rfl, ?_⟩
    simp [cleanupRun, runPasses]
  | cons n ns ih =>
    intro P resD resW hdisj hres
    cases hlk : table.lookup n with
    | none =>
      have hruneq : runPasses now table (n :: ns) = runPasses now table ns := by
        simp [runPasses, hlk]
      have hskipD : cleanupRun true now table (n :: ns) resD fs0 =
          cleanupRun true now table ns resD fs0 := by
        simp [cleanupRun, hlk]
      have hskipW : cleanupRun false now table (n :: ns) resW
          (fs0.filter (fun g => !(hitAny P g))) =
          cleanupRun false now table ns resW (fs0.filter (fun g => !(hitAny P g))) := by
        simp [cleanupRun, hlk]
      rw [hskipD, hskipW]
      have hdisj2 : ∀ f ∈ fs0, hitCount (P ++ runPasses now table ns) f ≤ 1 := by
        intro f hf
        have h := hdisj f hf
        rw [hruneq] at h
        exact h
      obtain ⟨i1, i2, i3⟩ := ih P resD resW hdisj2 hres
      refine ⟨i1, i2, ?_⟩
      rw [hruneq]
      exact i3
    | some rule =>
      by_cases hen : rule.enabled = false
      · have hruneq : runPasses now table (n :: ns) = runPasses now table ns := by
          simp [runPasses, hlk, hen]
        have hskipD : cleanupRun true now table (n :: ns) resD fs0 =
            cleanupRun true now table ns resD fs0 := by
          simp [cleanupRun, hlk, hen]
        have hskipW : cleanupRun false now table (n :: ns) resW
            (fs0.filter (fun g => !(hitAny P g))) =
            cleanupRun false now table ns resW (fs0.filter (fun g => !(hitAny P g))) := by
          simp [cleanupRun, hlk, hen]
        rw [hskipD, hskipW]
        have hdisj2 : ∀ f ∈ fs0, hitCount (P ++ runPasses now table ns) f ≤ 1 := by
          intro f hf
          have h := hdisj f hf
          rw [hruneq] at h
          exact h
        obtain ⟨i1, i2, i3⟩ := ih P resD resW hdisj2 hres
        refine ⟨i1, i2, ?_⟩
        rw [hruneq]
        exact i3
      · have hruneq : runPasses now table (n :: ns) =
            rulePasses now rule ++ runPasses now table ns := by
          simp [runPasses, hlk, hen]
        have hdisjR : ∀ f ∈ fs0,
            hitCount (P ++ (rulePasses now rule ++ runPasses now table ns)) f ≤ 1 := by
          intro f hf
          have h := hdisj f hf
          rw [hruneq] at h
          exact h
        have hdisjRule : ∀ f ∈ fs0, hitCount (P ++ rulePasses now rule) f ≤ 1 := by
          intro f hf
          have h := hdisjR f hf
          rw [← List.append_assoc] at h
          unfold hitCount at h ⊢
          rw [List.filter_append, List.length_append] at h
          omega
        obtain ⟨hrd_w, hrd_fs⟩ := cleanupRule_dry_spec now rule fs0
        obtain ⟨hrw_cnt, hrw_fs⟩ := cleanupRule_wet_spec now rule P fs0 hnd hdisjRule
        have hstepD : cleanupRun true now table (n :: ns) resD fs0 =
            cleanupRun true now table ns
              (setResult resD n (cleanupRule true now rule fs0).1)
              (cleanupRule true now rule fs0).2 := by
          simp [cleanupRun, hlk, hen]
        have hstepW : cleanupRun false now table (n :: ns) resW
            (fs0.filter (fun g => !(hitAny P g))) =
            cleanupRun false now table ns
              (setResult resW n
                (cleanupRule false now rule (fs0.filter (fun g => !(hitAny P g)))).1)
              (cleanupRule false now rule (fs0.filter (fun g => !(hitAny P g)))).2 := by
          simp [cleanupRun, hlk, hen]
        rw [hstepD, hstepW, hrd_fs, hrw_fs]
        have hdisj' : ∀ f ∈ fs0,
            hitCount ((P ++ rulePasses now rule) ++ runPasses now table ns) f ≤ 1 := by
          intro f hf
          have h := hdisjR f hf
          rw [List.append_assoc]
          exact h
        have hres' : (setResult resD n (cleanupRule true now rule fs0).1).map
              (fun x => (x.1, x.2.wouldDelete)) =
            (setResult resW n
              (cleanupRule false now rule (fs0.filter (fun g => !(hitAny P g)))).1).map
              (fun x => (x.1, x.2.filesDeleted)) :=
          setResult_map _ _ _ _ _ hres (by rw [hrd_w, hrw_cnt])
        obtain ⟨i1, i2, i3⟩ := ih (P ++ rulePasses now rule) _ _ hdisj' hres'
        refine ⟨i1, i2, ?_⟩
        rw [i3]
        apply List.filter_congr
        intro g _
        unfold hitAny
        rw [hruneq, ← List.append_assoc]

/-- C3 (amended): `performCleanup` with `dryRun = true` deletes no file, and
— provided no file is due for deletion under two different rule/directory
passes of the run, which holds for distinct rule names (the built-in rules
target disjoint directories) but fails when a rule name repeats — the
per-rule count of files the dry run logs as "[DRY RUN] Would delete" equals
the per-rule `filesDeleted` reported by rerunning the same rules with
`dryRun = false` on the unchanged directory state.  (The dry run's own result
record reports `filesDeleted = 0`; its would-delete count exists only as log
lines.) -/
theorem performCleanup_dry_matches_wet (now : Nat) (names : List String) (fs : FS)
    (hnd : NodupPaths fs)
    (hdisj : ∀ f ∈ fs, hitCount (runPasses now cleanupRules names) f ≤ 1) :
    (performCleanup true now names fs).2 = fs ∧
    (performCleanup true now names fs).1.map (fun x => (x.1, x.2.wouldDelete)) =
      (performCleanup false now names fs).1.map (fun x => (x.1, x.2.filesDeleted)) := by
  have hfs : fs.filter (fun g => !(hitAny [] g)) = fs := by
    simp [hitAny]
  obtain ⟨h1, h2, h3⟩ := cleanupRun_spec now cleanupRules names fs hnd [] [] []
    (by simpa using hdisj) rfl
  unfold performCleanup
  rw [hfs] at h1
  exact ⟨h2, h1⟩

/-- Witness for `performCleanup_dry_matches_wet`: distinct rule names
`["logs", "temp"]` over two stale files. -/
theorem performCleanup_dry_matches_wet_witness :
    NodupPaths c3wfs ∧
    (∀ f ∈ c3wfs, hitCount (runPasses (100 * dayMs) cleanupRules ["logs", "temp"]) f ≤ 1) ∧
    ((performCleanup true (100 * dayMs) ["logs", "temp"] c3wfs).2 = c3wfs ∧
     (performCleanup true (100 * dayMs) ["logs", "temp"] c3wfs).1.map
        (fun x => (x.1, x.2.wouldDelete)) =
       (performCleanup false (100 * dayMs) ["logs", "temp"] c3wfs).1.map
        (fun x => (x.1, x.2.filesDeleted))) :=
  ⟨by decide, by decide,
    performCleanup_dry_matches_wet (100 * dayMs) ["logs", "temp"] c3wfs (by decide) (by decide)⟩

end Coded
